import Mathlib

/-!
Verification development for the prod-gis location-intelligence core.

The TypeScript sources are shallowly embedded:
- JavaScript values that flow through untyped positions are modelled by `JVal`;
  a JS number slot is `Option ℚ`, where `none` stands for a value that is
  absent (`undefined`) or not a finite number (`NaN`), and `some q` is the
  finite number `q`.  Both `undefined` and `NaN` are falsy and both fail the
  `Number.isFinite` test, so one constructor faithfully covers the behaviour
  the code can observe about them.
- Fallible code (thrown exceptions) is modelled with `Except`/`Option`.
- External effects (HTTP fetches, dynamically imported tool implementations,
  the LLM agents) are inputs: pure functions passed as parameters.
- Impure metadata (wall-clock timestamps, execution time) is omitted; no claim
  refers to it.
-/

/-! ## JavaScript value model -/

/-- Model of an arbitrary JavaScript/JSON value.  Numbers are `Option ℚ`
(`none` = NaN, a non-finite number). `undefined` is represented by absence
(`Option JVal` = `none`) at the use sites. -/
inductive JVal where
  | jstr (s : String)
  | jnum (q : Option ℚ)
  | jbool (b : Bool)
  | jnull
  | jarr (elems : List JVal)
  | jobj (fields : List (String × JVal))

/-- JavaScript truthiness of a present value: empty string, 0, NaN, false and
null are falsy; arrays and objects are always truthy. -/
def JVal.truthy : JVal → Bool
  | JVal.jstr s => s ≠ ""
  | JVal.jnum q =>
    match q with
    | some x => x ≠ 0
    | none => false
  | JVal.jbool b => b
  | JVal.jnull => false
  | JVal.jarr _ => true
  | JVal.jobj _ => true

/-- Property access `v[k]`: `none` models `undefined` (missing field or a
non-object receiver). -/
def getField (v : JVal) (k : String) : Option JVal :=
  match v with
  | JVal.jobj fields => fields.lookup k
  | _ => none

/-- Property access followed by a truthiness test, as in `v.k || ...`:
returns the field only when it is present and truthy. -/
def truthyGet (v : JVal) (k : String) : Option JVal :=
  match getField v k with
  | some x => if x.truthy then some x else none
  | none => none

/-- JavaScript `a || b` on two possibly-absent strings (empty string is
falsy). -/
def jsOrStrOpt (a b : Option String) : Option String :=
  match a with
  | some s => if s = "" then b else some s
  | none => b

/-- JavaScript `a || b || d` collapsing to a string default, as in
`agentResponse?.text || agentResponse?.content || 'Analysis completed'`. -/
def jsOrDefault (a : Option String) (d : String) : String :=
  match a with
  | some s => if s = "" then d else s
  | none => d

/-! ## RetryingHttpClient — `fetchWithRetry` (tomtom-geocoding tool module)

Embeds the helper

  async function fetchWithRetry(url, options, maxRetries = 3, baseDelay = 1000)

The sequence of outcomes the network produces for attempt 0, 1, ... is the
input function `f`.  The embedding returns, besides the final outcome, the
number of `fetch` calls issued and the list of back-off delays awaited, so
the retry schedule is observable. -/

/-- Outcome of one `fetch` call: an HTTP response (status and body text) or a
network-level failure (the thrown error's message). -/
inductive FetchOutcome where
  | resp (status : Nat) (body : String)
  | netErr (msg : String)

/-- Result of running `fetchWithRetry`: the returned response or the thrown
error message, the number of requests issued, and the delays awaited (in ms,
in order). -/
structure RetryResult where
  outcome : Except String (Nat × String)
  requests : Nat
  delays : List Nat

/-- Embeds `response.ok`: HTTP status in the 200-299 range. -/
abbrev responseOk (status : Nat) : Prop := 200 ≤ status ∧ status < 300

/-- Error message built when all retries are exhausted on rate limiting
(template string from the source). -/
def rateLimitExceededMsg (maxRetries : Nat) (body : String) : String :=
  "TomTom API rate limit exceeded after " ++ toString (maxRetries + 1) ++ " attempts: " ++ body

/-- One loop of `fetchWithRetry`, by fuel (the loop runs for
`attempt = 0 .. maxRetries`, so `maxRetries + 1 - attempt` fuel suffices;
at fuel 0 the loop has exited and the recorded `lastError` is thrown —
`lastError` is always set by then, the `getD` default is unreachable). -/
def fetchWithRetryGo (f : Nat → FetchOutcome) (maxRetries baseDelay : Nat) :
    Nat → Nat → Option String → Nat → List Nat → RetryResult
  | 0, _, lastError, reqs, delays =>
    ⟨Except.error (lastError.getD ""), reqs, delays⟩
  | fuel + 1, attempt, lastError, reqs, delays =>
    match f attempt with
    | FetchOutcome.resp s b =>
      if responseOk s ∨ s ≠ 429 then
        ⟨Except.ok (s, b), reqs + 1, delays⟩
      else if attempt < maxRetries then
        fetchWithRetryGo f maxRetries baseDelay fuel (attempt + 1) lastError (reqs + 1)
          (delays ++ [baseDelay * 2 ^ attempt])
      else
        fetchWithRetryGo f maxRetries baseDelay fuel (attempt + 1)
          (some (rateLimitExceededMsg maxRetries b)) (reqs + 1) delays
    | FetchOutcome.netErr m =>
      if attempt = maxRetries then
        ⟨Except.error m, reqs + 1, delays⟩
      else
        fetchWithRetryGo f maxRetries baseDelay fuel (attempt + 1) (some m) (reqs + 1)
          (delays ++ [baseDelay * 2 ^ attempt])

/-- Embeds `fetchWithRetry(url, options, maxRetries, baseDelay)` run against
the outcome sequence `f`. -/
def fetchWithRetry (f : Nat → FetchOutcome) (maxRetries baseDelay : Nat) : RetryResult :=
  fetchWithRetryGo f maxRetries baseDelay (maxRetries + 1) 0 none 0 []

/-! ## ToolDispatcher — `executePlanTool.execute` (execute-plan-tool.ts)

The tool implementations behind the dynamic imports are external effects:
they are supplied as the pure parameter `run` mapping a canonical tool id and
its arguments to an outcome.  The JS `results` object is an association list
in first-insertion order where an assignment to an existing key overwrites in
place (`upsert`).  Alongside the results the embedding records the list of
tool invocations actually performed, so "this tool was never executed" is
expressible. -/

/-- Character-list prefix test (used for the namespace strip and, later,
for substring containment). -/
def chPre : List Char → List Char → Bool
  | [], _ => true
  | _ :: _, [] => false
  | a :: as, b :: bs => a = b && chPre as bs

/-- Outcome of running one (dynamically imported) tool implementation:
either a returned value or a thrown error with a message. -/
inductive ToolOutcome where
  | ok (v : JVal)
  | throws (msg : String)

/-- One entry of the returned `results` object: the tool's result value, the
empty object stored for missing implementations, or an error object. -/
inductive ResultEntry where
  | value (v : JVal)
  | emptyObj
  | errorMsg (msg : String)

/-- One element of the incoming plan array.  `tool = none` models a `tool`
field that is missing or not a string; `args = none` models a missing `args`
field (the code applies the default via `toolCall.args ?? ` an empty
object). -/
structure PlanItem where
  tool : Option String
  args : Option JVal

/-- The inline alias table of `executePlanTool.execute`. -/
def aliasMap : List (String × String) :=
  [("executePlanTool", "execute-plan"),
   ("execute-plan", "execute-plan"),
   ("planTool", "plan-query"),
   ("plan-query", "plan-query"),
   ("tomtomFuzzySearchTool", "tomtom-fuzzy-search"),
   ("tomtom-fuzzy-search", "tomtom-fuzzy-search"),
   ("searchPoiTool", "search-poi"),
   ("search-poi", "search-poi"),
   ("getPlaceByIdTool", "get-place-by-id"),
   ("get-place-by-id", "get-place-by-id"),
   ("getGooglePlaceDetailsTool", "get-google-place-details"),
   ("get-google-place-details", "get-google-place-details"),
   ("getGooglePlacesInsightsTool", "get-google-places-insights"),
   ("get-google-places-insights", "get-google-places-insights"),
   ("searchEventsTool", "search-events"),
   ("search-events", "search-events"),
   ("getIpLocationTool", "get-ip-location"),
   ("get-ip-location", "get-ip-location"),
   ("getWeatherTool", "get-weather"),
   ("get-weather", "get-weather"),
   ("getFootTrafficTool", "get-foot-traffic-forecast"),
   ("get-foot-traffic-forecast", "get-foot-traffic-forecast"),
   ("getFootTrafficSummaryTool", "get-foot-traffic-summary"),
   ("get-foot-traffic-summary", "get-foot-traffic-summary"),
   ("getPoiPhotosTool", "get-poi-photos"),
   ("get-poi-photos", "get-poi-photos"),
   ("getAggregatedMetricTool", "get-aggregated-metric"),
   ("get-aggregated-metric", "get-aggregated-metric"),
   ("formatMapDataTool", "format-map-data"),
   ("format-map-data", "format-map-data")]

/-- Normalization of a requested tool id: strip the leading namespace
marker (the ten characters of the stripped namespace, as in
`toolId.startsWith` and `substring`, here spelt on the character lists) and
resolve through `aliasMap`; unrecognized ids pass through unchanged. -/
def canonicalId (toolId : String) : String :=
  let t := if chPre "functions.".data toolId.data
           then String.mk (toolId.data.drop 10) else toolId
  (aliasMap.lookup t).getD t

/-- The canonical ids handled by the dispatcher's switch (each case
dynamically imports one tool implementation). -/
def knownTools : List String :=
  ["tomtom-fuzzy-search", "search-poi", "get-place-by-id",
   "get-google-place-details", "get-google-places-insights", "search-events",
   "get-ip-location", "get-weather", "get-foot-traffic-forecast",
   "get-foot-traffic-summary", "get-poi-photos", "get-aggregated-metric",
   "format-map-data"]

/-- The recursion-guard error message from the source. -/
def recursionMsg : String := "Recursive/plan call prevented during execution"

/-- The fallback used when a thrown error has a falsy message. -/
def unknownToolErrMsg : String := "Unknown error during tool execution"

/-- Assignment `results[k] = v` on a JS object viewed as an association
list: overwrite in place if the key exists, else append. -/
def upsert (l : List (String × ResultEntry)) (k : String) (v : ResultEntry) :
    List (String × ResultEntry) :=
  match l with
  | [] => [(k, v)]
  | (k0, v0) :: rest => if k0 = k then (k, v) :: rest else (k0, v0) :: upsert rest k v

/-- Dispatcher state while iterating the plan: the `results` object plus the
trace of tool invocations performed so far. -/
structure DispatchState where
  results : List (String × ResultEntry)
  calls : List (String × JVal)

/-- Body of the `for (const toolCall of plan)` loop. -/
def dispatchStep (run : String → JVal → ToolOutcome) (st : DispatchState) :
    PlanItem → DispatchState
  | ⟨none, _⟩ => st
  | ⟨some tid, args⟩ =>
    if tid = "" then st
    else
      let cid := canonicalId tid
      let toolArgs := args.getD (JVal.jobj [])
      if cid = "execute-plan" ∨ cid = "plan-query" then
        { st with results := upsert st.results cid (ResultEntry.errorMsg recursionMsg) }
      else if knownTools.contains cid then
        match run cid toolArgs with
        | ToolOutcome.ok v =>
          ⟨upsert st.results cid (ResultEntry.value v), st.calls ++ [(cid, toolArgs)]⟩
        | ToolOutcome.throws m =>
          ⟨upsert st.results cid
             (ResultEntry.errorMsg (if m = "" then unknownToolErrMsg else m)),
           st.calls ++ [(cid, toolArgs)]⟩
      else
        { st with results := upsert st.results cid ResultEntry.emptyObj }

/-- Embeds `executePlanTool.execute`: `none` models a `plan` field that is
not an array (the early return of an empty results object). -/
def executePlan (run : String → JVal → ToolOutcome) (maybePlan : Option (List PlanItem)) :
    DispatchState :=
  match maybePlan with
  | none => ⟨[], []⟩
  | some plan => plan.foldl (dispatchStep run) ⟨[], []⟩

/-- Canonical id of a plan item, when the item is not skipped. -/
def itemCanonical : PlanItem → Option String
  | ⟨none, _⟩ => none
  | ⟨some tid, _⟩ => if tid = "" then none else some (canonicalId tid)

/-- The result entry a single (non-skipped) request produces, as a function
of its canonical id and arguments.  Used to specify the dispatcher. -/
def requestEntry (run : String → JVal → ToolOutcome) (cid : String) (args : Option JVal) :
    ResultEntry :=
  if cid = "execute-plan" ∨ cid = "plan-query" then ResultEntry.errorMsg recursionMsg
  else if knownTools.contains cid then
    match run cid (args.getD (JVal.jobj [])) with
    | ToolOutcome.ok v => ResultEntry.value v
    | ToolOutcome.throws m =>
      ResultEntry.errorMsg (if m = "" then unknownToolErrMsg else m)
  else ResultEntry.emptyObj

/-- The last plan item that normalizes to a given canonical id, if any. -/
def lastRequestFor (plan : List PlanItem) (cid : String) : Option PlanItem :=
  plan.reverse.find? (fun it => itemCanonical it = some cid)

/-! ## FeatureSynthesizer — `formatMapDataTool.execute` (format-map-data-tool module)

The provider payload shapes are embedded as structures holding exactly the
fields the code reads.  Every payload slot of `RawData` models the lookup
`rawData[aliasKey] || rawData[canonicalKey]` for that provider; `none`
covers an absent key and any falsy payload value. -/

/-- A TomTom `position` object with possibly absent or non-finite members. -/
structure JsPosition where
  lat : Option ℚ
  lon : Option ℚ

/-- The fields read from a TomTom `poi` object. -/
structure TomTomPoi where
  name : Option String
  categories : List String

/-- The fields read from a TomTom `address` object. -/
structure TomTomAddress where
  freeformAddress : Option String

/-- One entry of a TomTom search `results` array. -/
structure TomTomResult where
  position : Option JsPosition := none
  poi : Option TomTomPoi := none
  address : Option TomTomAddress := none

/-- A TomTom fuzzy-search / POI-search payload. -/
structure TomTomPayload where
  results : Option (List TomTomResult)

/-- A Google Places `location` object. -/
structure GoogleLocation where
  latitude : Option ℚ
  longitude : Option ℚ

/-- A Google Places `displayName` object. -/
structure GoogleDisplayName where
  text : Option String

/-- The fields read from a Google Place Details `result` object. -/
structure GooglePlace where
  location : Option GoogleLocation := none
  displayName : Option GoogleDisplayName := none
  formattedAddress : Option String := none
  rating : Option ℚ := none
  priceLevel : Option String := none

/-- A Google Place Details payload. -/
structure GooglePlacePayload where
  result : Option GooglePlace

/-- A Google Places Insights payload (place ids without coordinates). -/
structure InsightsPayload where
  places : Option (List String)

/-- An event `location` object; `coordinates` models the first two slots of
the coordinate array (the code forwards the array and later destructures
longitude and latitude from it). -/
structure EventLocation where
  coordinates : Option (Option ℚ × Option ℚ)

/-- One entry of a PredictHQ events `results` array (`startTime`/`endTime`
embed the source fields named `start` and `end`). -/
structure EventResult where
  location : Option EventLocation := none
  title : Option String := none
  category : Option String := none
  startTime : Option String := none
  endTime : Option String := none

/-- A PredictHQ events payload. -/
structure EventsPayload where
  results : Option (List EventResult)

/-- An IP-location payload. -/
structure IpLocationPayload where
  latitude : Option ℚ := none
  longitude : Option ℚ := none
  city : Option String := none

/-- A TomTom place-details-by-id payload. -/
structure PlaceByIdPayload where
  position : Option JsPosition := none
  poi : Option TomTomPoi := none
  address : Option TomTomAddress := none

/-- The `rawData` mapping given to the synthesizer, one slot per provider
key pair the code probes. -/
structure RawData where
  tomtomData : Option TomTomPayload := none
  googlePlaceData : Option GooglePlacePayload := none
  googleInsightsData : Option InsightsPayload := none
  eventsData : Option EventsPayload := none
  ipLocationData : Option IpLocationPayload := none
  searchPoiData : Option TomTomPayload := none
  placeByIdData : Option PlaceByIdPayload := none

/-- The properties copied onto an emitted feature (fields the various
branches set; unset fields default to absent). -/
structure FeatureProps where
  name : Option String := none
  address : Option String := none
  category : Option String := none
  rating : Option ℚ := none
  priceLevel : Option String := none
  title : Option String := none
  startTime : Option String := none
  endTime : Option String := none
  city : Option String := none
  source : String

/-- An emitted GeoJSON feature: geometry type tag and the two coordinate
slots (`lon` then `lat` in the emitted array order). -/
structure MapFeature where
  geomType : String
  lon : Option ℚ
  lat : Option ℚ
  props : FeatureProps

/-- Feature built from one TomTom search result, fuzzy or POI (guard:
`result.position && result.position.lat && result.position.lon`, truthiness
of the two numbers). -/
def tomtomResultFeature (source : String) (r : TomTomResult) : Option MapFeature :=
  match r.position with
  | none => none
  | some pos =>
    match pos.lat, pos.lon with
    | some la, some lo =>
      if la ≠ 0 ∧ lo ≠ 0 then
        some { geomType := "Point", lon := some lo, lat := some la,
               props := { name := jsOrStrOpt (r.poi.bind TomTomPoi.name)
                            (r.address.bind TomTomAddress.freeformAddress),
                          address := r.address.bind TomTomAddress.freeformAddress,
                          category := r.poi.bind (fun p => p.categories.head?),
                          source := source } }
      else none
    | _, _ => none

/-- Features from a TomTom fuzzy-search or POI-search payload. -/
def tomtomFeatures (source : String) (d : Option TomTomPayload) : List MapFeature :=
  match d with
  | none => []
  | some p =>
    match p.results with
    | none => []
    | some rs => rs.filterMap (tomtomResultFeature source)

/-- Features from a Google Place Details payload (guard: `place.location &&
place.location.latitude && place.location.longitude`). -/
def googlePlaceFeatures (d : Option GooglePlacePayload) : List MapFeature :=
  match d with
  | none => []
  | some g =>
    match g.result with
    | none => []
    | some place =>
      match place.location with
      | none => []
      | some loc =>
        match loc.latitude, loc.longitude with
        | some la, some lo =>
          if la ≠ 0 ∧ lo ≠ 0 then
            [{ geomType := "Point", lon := some lo, lat := some la,
               props := { name := place.displayName.bind GoogleDisplayName.text,
                          address := place.formattedAddress,
                          rating := place.rating,
                          priceLevel := place.priceLevel,
                          source := "Google Place Details" } }]
          else []
        | _, _ => []

/-- Features from a Google Places Insights payload: the branch body only
holds the comment explaining that id-only entries are skipped to avoid
fabricating map pins, so no feature is ever added. -/
def insightsFeatures (_d : Option InsightsPayload) : List MapFeature := []

/-- Feature built from one event (guard: `event.location &&
event.location.coordinates`; the coordinate array is forwarded verbatim). -/
def eventFeature (ev : EventResult) : Option MapFeature :=
  match ev.location with
  | none => none
  | some loc =>
    match loc.coordinates with
    | none => none
    | some c =>
      some { geomType := "Point", lon := c.1, lat := c.2,
             props := { title := ev.title, category := ev.category,
                        startTime := ev.startTime, endTime := ev.endTime,
                        source := "PredictHQ Events" } }

/-- Features from a PredictHQ events payload. -/
def eventsFeatures (d : Option EventsPayload) : List MapFeature :=
  match d with
  | none => []
  | some p =>
    match p.results with
    | none => []
    | some rs => rs.filterMap eventFeature

/-- Features from an IP-location payload (guard: `ipLocationData.latitude &&
ipLocationData.longitude`). -/
def ipFeatures (d : Option IpLocationPayload) : List MapFeature :=
  match d with
  | none => []
  | some ip =>
    match ip.latitude, ip.longitude with
    | some la, some lo =>
      if la ≠ 0 ∧ lo ≠ 0 then
        [{ geomType := "Point", lon := some lo, lat := some la,
           props := { city := ip.city, source := "IP Location" } }]
      else []
    | _, _ => []

/-- Features from a TomTom place-details-by-id payload (guard: only
`placeByIdData && placeByIdData.position` — the individual coordinate
members are not checked). -/
def placeByIdFeatures (d : Option PlaceByIdPayload) : List MapFeature :=
  match d with
  | none => []
  | some p =>
    match p.position with
    | none => []
    | some pos =>
      [{ geomType := "Point", lon := pos.lon, lat := pos.lat,
         props := { name := jsOrStrOpt (p.poi.bind TomTomPoi.name)
                      (p.address.bind TomTomAddress.freeformAddress),
                    address := p.address.bind TomTomAddress.freeformAddress,
                    category := p.poi.bind (fun q => q.categories.head?),
                    source := "TomTom Place Details" } }]

/-- All features pushed by `formatMapDataTool.execute`, in the order of the
source's provider blocks. -/
def formatMapDataFeatures (rd : RawData) : List MapFeature :=
  tomtomFeatures "TomTom Fuzzy Search" rd.tomtomData
    ++ googlePlaceFeatures rd.googlePlaceData
    ++ insightsFeatures rd.googleInsightsData
    ++ eventsFeatures rd.eventsData
    ++ ipFeatures rd.ipLocationData
    ++ tomtomFeatures "TomTom POI Search" rd.searchPoiData
    ++ placeByIdFeatures rd.placeByIdData

/-- The bounds object computed by `calculateBounds`. -/
structure BoundsBox where
  north : ℚ
  south : ℚ
  east : ℚ
  west : ℚ

/-- The center object computed by `calculateCenter`; the members are
`Option ℚ` because the running sums propagate NaN. -/
structure CenterPoint where
  lat : Option ℚ
  lon : Option ℚ

/-- The coordinate pairs `calculateBounds` actually folds over: point
features whose two converted coordinates pass `Number.isFinite`. -/
def finitePointCoords (features : List MapFeature) : List (ℚ × ℚ) :=
  features.filterMap fun f =>
    if f.geomType = "Point" then
      match f.lon, f.lat with
      | some lo, some la => some (lo, la)
      | _, _ => none
    else none

/-- Embeds `calculateBounds` (format-map-data-tool version, with the
`Number.isFinite` filter).  The source folds min/max accumulators started at
plus and minus infinity and returns null when they were never updated; over
the rationals this is the fold over the nonempty extracted list, and `none`
for the empty one. -/
def calculateBounds (features : List MapFeature) : Option BoundsBox :=
  match finitePointCoords features with
  | [] => none
  | p :: ps =>
    some { north := ps.foldl (fun m q => max m q.2) p.2,
           south := ps.foldl (fun m q => min m q.2) p.2,
           east := ps.foldl (fun m q => max m q.1) p.1,
           west := ps.foldl (fun m q => min m q.1) p.1 }

/-- The coordinate pairs `calculateCenter` folds over: every point feature,
with no finiteness check. -/
def pointCoordValues (features : List MapFeature) : List (Option ℚ × Option ℚ) :=
  features.filterMap fun f =>
    if f.geomType = "Point" then some (f.lon, f.lat) else none

/-- NaN-propagating addition of JS numbers. -/
def optAdd (a b : Option ℚ) : Option ℚ :=
  match a, b with
  | some x, some y => some (x + y)
  | _, _ => none

/-- The running sum `total += v` started at 0. -/
def optSum (l : List (Option ℚ)) : Option ℚ :=
  l.foldl optAdd (some 0)

/-- Division of a possibly-NaN total by a count. -/
def optDivNat (a : Option ℚ) (n : Nat) : Option ℚ :=
  a.map (fun x => x / (n : ℚ))

/-- Embeds `calculateCenter` (identical in the tool module and in
places.service.ts): arithmetic mean over all point features, null when there
is none. -/
def calculateCenter (features : List MapFeature) : Option CenterPoint :=
  let pts := pointCoordValues features
  if pts.isEmpty then none
  else
    some { lat := optDivNat (optSum (pts.map Prod.snd)) pts.length,
           lon := optDivNat (optSum (pts.map Prod.fst)) pts.length }

/-- Deduplication keeping the first occurrence of each element, as
`Array.from(new Set(xs))` does. -/
def firstOccurrences (seen : List String) : List String → List String
  | [] => []
  | s :: rest =>
    if seen.contains s then firstOccurrences seen rest
    else s :: firstOccurrences (s :: seen) rest

/-- The FeatureCollection returned by the synthesizer (the impure
`generatedAt` timestamp is omitted). -/
structure MapFC where
  fcType : String
  features : List MapFeature
  bounds : Option BoundsBox
  center : Option CenterPoint
  totalFeatures : Nat
  sources : List String

/-- Embeds the return value of `formatMapDataTool.execute`. -/
def formatMapData (rd : RawData) : MapFC :=
  let features := formatMapDataFeatures rd
  { fcType := "FeatureCollection",
    features := features,
    bounds := calculateBounds features,
    center := calculateCenter features,
    totalFeatures := features.length,
    sources := firstOccurrences []
      ((features.map (fun f => f.props.source)).filter (fun s => s ≠ "")) }

/-! ## InsightsQueryPlanner — adaptive radius (google-places-insights-tool.ts)

Embeds the radius adjustment of `getGooglePlacesInsightsTool.execute`: when a
place listing is requested, the count query returned more than `MAX_PLACES`
entries and a circle radius is present (truthy) the radius is scaled down
assuming count proportional to area, with a ten percent buffer and a 50 m
floor. -/

/-- The effective listing radius as a function of the count-query total and
the original circle radius; outside the guard the radius is unchanged. -/
noncomputable def insightsEffectiveRadius (totalCount : Nat) (radius : ℝ) : ℝ :=
  if 100 < totalCount ∧ radius ≠ 0 then
    max 50 ((⌊radius * (Real.sqrt (100 / (totalCount : ℝ)) * 0.9)⌋ : ℤ) : ℝ)
  else radius

/-! ## Case-insensitive containment used by the text-based map generator

Models `text.toLowerCase().includes(name.toLowerCase())` on the ASCII range
that the built-in location names use. -/

/-- ASCII lower-casing of one character, as `toLowerCase` acts on the
relevant strings. -/
def charLower (c : Char) : Char :=
  if 'A' ≤ c ∧ c ≤ 'Z' then Char.ofNat (c.toNat + 32) else c

/-- Lower-cased character list of a string. -/
def lowerChars (s : String) : List Char :=
  s.data.map charLower

/-- Character-list substring test. -/
def chSub (pat : List Char) : List Char → Bool
  | [] => pat.isEmpty
  | c :: rest => chPre pat (c :: rest) || chSub pat rest

/-- Embeds `hay.toLowerCase().includes(pat.toLowerCase())`. -/
def strContainsCI (hay pat : String) : Bool :=
  chSub (lowerChars pat) (lowerChars hay)

/-! ## Places service — `formatAgentResponseDirect` and friends
(places.service.ts)

Two computations over the response text are regular-expression matches; each
is a function of the text and is supplied to the embedding as an input:
- `jsonContent : Option JVal` embeds the fenced/inline JSON extraction (the
  three patterns tried in order, with `JSON.parse`); `none` when no pattern
  produced parsable JSON.
- `hasLocationMatch : Bool` embeds the guard
  `locationMatches && locationMatches.length > 0` over the two street-name
  patterns.  `generateBasicMapDataFromText` itself ignores the match list (its
  second parameter is unused in the source) and re-scans the full text against
  its built-in table, which is embedded exactly. -/

/-- The hard-coded geocoding table `majorLocations` of
`generateBasicMapDataFromText`: name, latitude, longitude. -/
def majorLocations : List (String × ℚ × ℚ) :=
  [("Embarcadero Center", 37.7955, -122.3967),
   ("Pine Street", 37.7920, -122.3984),
   ("Commercial Street", 37.7942, -122.4037),
   ("Front Street", 37.7925, -122.3989),
   ("Davis Street", 37.7951, -122.3981),
   ("Financial District", 37.7949, -122.4039)]

/-- A feature produced by the text-based generator (all fields are set
explicitly by the source; coordinates are emitted in lon, lat order). -/
structure BasicFeature where
  geomType : String
  lon : ℚ
  lat : ℚ
  id : String
  name : String
  category : String
  source : String
  confidence : ℚ

/-- The feature built for table index `idx` and table entry `e`. -/
def basicFeatureFor (idx : Nat) (e : String × ℚ × ℚ) : BasicFeature :=
  { geomType := "Point", lon := e.2.2, lat := e.2.1,
    id := "location-" ++ toString idx, name := e.1,
    category := "commercial-property", source := "text-analysis",
    confidence := 0.8 }

/-- A center value of the places-service helpers (no NaN can arise here:
the generated features carry literal table coordinates). -/
structure PsCenter where
  lat : ℚ
  lon : ℚ

/-- Embeds the places.service.ts `calculateBounds` (no finiteness filter;
same infinity-accumulator folding as the tool version). -/
def psCalculateBounds (features : List BasicFeature) : Option BoundsBox :=
  match features.filterMap
      (fun f => if f.geomType = "Point" then some (f.lon, f.lat) else none) with
  | [] => none
  | p :: ps =>
    some { north := ps.foldl (fun m q => max m q.2) p.2,
           south := ps.foldl (fun m q => min m q.2) p.2,
           east := ps.foldl (fun m q => max m q.1) p.1,
           west := ps.foldl (fun m q => min m q.1) p.1 }

/-- Embeds the places.service.ts `calculateCenter` on the generated
features. -/
def psCalculateCenter (features : List BasicFeature) : Option PsCenter :=
  match features.filterMap
      (fun f => if f.geomType = "Point" then some (f.lon, f.lat) else none) with
  | [] => none
  | p :: ps =>
    some { lat := ((p :: ps).map Prod.snd).sum / ((p :: ps).length : ℚ),
           lon := ((p :: ps).map Prod.fst).sum / ((p :: ps).length : ℚ) }

/-- The FeatureCollection built by `generateBasicMapDataFromText` (impure
timestamp omitted). -/
structure BasicFC where
  fcType : String
  features : List BasicFeature
  bounds : Option BoundsBox
  center : Option PsCenter
  totalFeatures : Nat
  sources : List String
  note : String

/-- Embeds `generateBasicMapDataFromText(text, locationMatches)`: one feature
per `majorLocations` entry (with its table index) whose name occurs
case-insensitively in the text; null when no entry matches.  The
`locationMatches` parameter is unused in the source and omitted here. -/
def generateBasicMapDataFromText (text : String) : Option BasicFC :=
  let features := majorLocations.enum.filterMap
    (fun p => if strContainsCI text p.2.1 then some (basicFeatureFor p.1 p.2) else none)
  if 0 < features.length then
    some { fcType := "FeatureCollection", features := features,
           bounds := psCalculateBounds features,
           center := psCalculateCenter features,
           totalFeatures := features.length,
           sources := ["text-analysis"],
           note := "Generated from locations mentioned in analysis" }
  else none

/-- A map-data value of `formatAgentResponseDirect`: promoted embedded or
tool-result JSON, or a collection generated from the text. -/
inductive MapData where
  | fromJson (v : JVal)
  | generated (fc : BasicFC)

/-- The scan over `agentResponse.toolResults`: the first entry whose
`result` looks map-shaped (`type === 'FeatureCollection'`, or a truthy
`features` or `mapData` field) yields `result.mapData || result`. -/
def isFCTypeTag : Option JVal → Bool
  | some (JVal.jstr t) => t = "FeatureCollection"
  | _ => false

/-- The strict-equality test `x?.type === 'FeatureCollection'` is
`isFCTypeTag`; the scan itself walks the list in order. -/
def scanToolResults : List JVal → Option MapData
  | [] => none
  | tr :: rest =>
    match getField tr "result" with
    | some r =>
      if isFCTypeTag (getField r "type")
          || (truthyGet r "features").isSome || (truthyGet r "mapData").isSome then
        some (MapData.fromJson ((truthyGet r "mapData").getD r))
      else scanToolResults rest
    | none => scanToolResults rest

/-- Embeds the map-data selection of `formatAgentResponseDirect`: the three
strategies run in source order, each only when the previous ones left
`mapData` null. -/
def extractMapData (jsonContent : Option JVal) (toolResults : Option (List JVal))
    (hasLocationMatch : Bool) (text : String) : Option MapData :=
  let md1 : Option MapData :=
    match jsonContent with
    | some jc =>
      if jc.truthy then
        match truthyGet jc "mapData" with
        | some v => some (MapData.fromJson v)
        | none =>
          match truthyGet jc "map" with
          | some v => some (MapData.fromJson v)
          | none => none
      else none
    | none => none
  let md2 : Option MapData :=
    match md1 with
    | some m => some m
    | none =>
      match toolResults with
      | some trs => scanToolResults trs
      | none => none
  match md2 with
  | some m => some m
  | none =>
    if hasLocationMatch then (generateBasicMapDataFromText text).map MapData.generated
    else none

/-- Strategy 1 in isolation: map data from the parsed embedded JSON object
(`jsonContent.mapData || jsonContent.map || null`). -/
def jsonMapData (jsonContent : Option JVal) : Option MapData :=
  match jsonContent with
  | some jc =>
    if jc.truthy then
      ((truthyGet jc "mapData").or (truthyGet jc "map")).map MapData.fromJson
    else none
  | none => none

/-- Strategy 2 in isolation: map data promoted from the supplied
tool-invocation results. -/
def toolResultsMapData (toolResults : Option (List JVal)) : Option MapData :=
  match toolResults with
  | some trs => scanToolResults trs
  | none => none

/-- Strategy 3 in isolation: map data generated from the response text via
the built-in location table, gated by the street-name regex guard. -/
def textMapData (hasLocationMatch : Bool) (text : String) : Option MapData :=
  if hasLocationMatch then (generateBasicMapDataFromText text).map MapData.generated
  else none

/-- The analysis value of `formatAgentResponseDirect`
(`jsonContent.analysis || jsonContent`). -/
def analysisFromJson (jc : JVal) : JVal :=
  match truthyGet jc "analysis" with
  | some a => a
  | none => jc

/-- The direct agent response as consumed by `formatAgentResponseDirect`:
the response fields read plus the two embedded regex computations over the
response text (see the section comment). -/
structure AgentTurn where
  text : Option String
  content : Option String
  toolResults : Option (List JVal)
  jsonContent : Option JVal
  hasLocationMatch : Bool

/-- Embeds `responseText`:
`agentResponse?.text || agentResponse?.content || 'Analysis completed'`. -/
def responseTextOf (turn : AgentTurn) : String :=
  jsOrDefault turn.text (jsOrDefault turn.content "Analysis completed")

/-- The tool lists of `getToolsForAgent`. -/
def getToolsForAgent (agentType : String) : List String :=
  if agentType = "urban-planning" then
    ["getFootTrafficSummaryTool", "getWeatherTool", "searchEventsTool",
     "getAggregatedMetricTool", "searchPoiTool", "formatMapDataTool"]
  else if agentType = "real-estate" then
    ["getFootTrafficSummaryTool", "getGooglePlacesInsightsTool",
     "getAggregatedMetricTool", "searchPoiTool", "getGooglePlaceDetailsTool",
     "formatMapDataTool"]
  else if agentType = "energy-utilities" then
    ["getWeatherTool", "getAggregatedMetricTool", "searchPoiTool",
     "getIpLocationTool", "formatMapDataTool"]
  else if agentType = "retail" then
    ["getFootTrafficSummaryTool", "getGooglePlacesInsightsTool",
     "getAggregatedMetricTool", "searchPoiTool", "getGooglePlaceDetailsTool",
     "searchEventsTool", "formatMapDataTool"]
  else []

/-- The fields of a `UnifiedChatResponseDto` the embedded code sets (impure
execution time and timestamp omitted; `rtype` holds the `ResponseType`
tag). -/
structure UnifiedResponse where
  rtype : String
  dataText : String
  dataAnalysis : JVal
  dataMapData : Option MapData
  agentsUsed : List String
  toolsUsed : List String
  confidence : ℚ
  success : Bool

/-- Embeds `formatAgentResponseDirect(agentResponse, agentType)`.  The
surrounding try/catch never fires in the embedding: every operation in the
try block is total here (JSON.parse failures are already absorbed inside the
pattern loop). -/
def formatAgentResponseDirect (turn : AgentTurn) (agentType : String) : UnifiedResponse :=
  let rt := responseTextOf turn
  { rtype := "ANALYSIS",
    dataText := rt,
    dataAnalysis :=
      (match turn.jsonContent with
       | some jc => if jc.truthy then analysisFromJson jc else JVal.jobj []
       | none => JVal.jobj []),
    dataMapData := extractMapData turn.jsonContent turn.toolResults turn.hasLocationMatch rt,
    agentsUsed := [agentType ++ "Agent"],
    toolsUsed := getToolsForAgent agentType,
    confidence := 0.9,
    success := true }

/-- Embeds `formatErrorResponse(error, agentType)`. -/
def formatErrorResponse (msg : String) (agentType : String) : UnifiedResponse :=
  { rtype := "TEXT",
    dataText := "Error processing " ++ agentType ++ " query: " ++ msg,
    dataAnalysis := JVal.jobj [("error", JVal.jstr msg)],
    dataMapData := none,
    agentsUsed := [agentType ++ "Agent"],
    toolsUsed := [],
    confidence := 0,
    success := false }

/-- Embeds the domain-query methods (`processUrbanPlanningQuery`,
`processRealEstateQuery`, `processEnergyUtilitiesQuery`,
`processRetailQuery`): the agent call is the input; a successful generation
is formatted directly, any thrown error (agent unavailable, generation
failure) lands in `formatErrorResponse`. -/
def processDomainQuery (agentType : String) (agentCall : Except String AgentTurn) :
    UnifiedResponse :=
  match agentCall with
  | Except.ok turn => formatAgentResponseDirect turn agentType
  | Except.error msg => formatErrorResponse msg agentType

/-! ## Coordinate provenance

To state that the synthesizer never invents coordinates, collect every
longitude/latitude pair that occurs anywhere in a raw payload, with no
guards: a feature whose coordinates are not in this list was fabricated. -/

/-- All coordinate pairs of a TomTom search payload. -/
def tomtomPairs (d : Option TomTomPayload) : List (Option ℚ × Option ℚ) :=
  match d with
  | none => []
  | some p =>
    match p.results with
    | none => []
    | some rs => rs.filterMap (fun r => r.position.map (fun pos => (pos.lon, pos.lat)))

/-- All coordinate pairs of a Google Place Details payload. -/
def googlePairs (d : Option GooglePlacePayload) : List (Option ℚ × Option ℚ) :=
  match d with
  | none => []
  | some g =>
    match g.result with
    | none => []
    | some place =>
      match place.location with
      | none => []
      | some loc => [(loc.longitude, loc.latitude)]

/-- All coordinate pairs of an events payload. -/
def eventPairs (d : Option EventsPayload) : List (Option ℚ × Option ℚ) :=
  match d with
  | none => []
  | some p =>
    match p.results with
    | none => []
    | some rs => rs.filterMap (fun ev => ev.location.bind (fun loc => loc.coordinates))

/-- All coordinate pairs of an IP-location payload. -/
def ipPairs (d : Option IpLocationPayload) : List (Option ℚ × Option ℚ) :=
  match d with
  | none => []
  | some ip => [(ip.longitude, ip.latitude)]

/-- All coordinate pairs of a place-details-by-id payload. -/
def placeByIdPairs (d : Option PlaceByIdPayload) : List (Option ℚ × Option ℚ) :=
  match d with
  | none => []
  | some p =>
    match p.position with
    | none => []
    | some pos => [(pos.lon, pos.lat)]

/-- Every longitude/latitude pair reported anywhere in the raw payload
mapping. -/
def rawCoordinatePairs (rd : RawData) : List (Option ℚ × Option ℚ) :=
  tomtomPairs rd.tomtomData ++ googlePairs rd.googlePlaceData
    ++ eventPairs rd.eventsData ++ ipPairs rd.ipLocationData
    ++ tomtomPairs rd.searchPoiData ++ placeByIdPairs rd.placeByIdData

/-- Modelled from the spec words for C4: an object of shape
`type: "FeatureCollection"` with a `features` array.  The extractor in the
source never tests this shape; this definition exists to compare the spec's
classification rule with the code. -/
def specIsFeatureCollectionShaped (jc : JVal) : Prop :=
  getField jc "type" = some (JVal.jstr "FeatureCollection") ∧
  ∃ xs, getField jc "features" = some (JVal.jarr xs)

/-- The generated features carried by a map-data value (empty for promoted
JSON or absent map data); lets concrete runs be inspected without computing
the bounds/center arithmetic. -/
def mapDataBasicFeatures : Option MapData → List BasicFeature
  | some (MapData.generated fc) => fc.features
  | _ => []

/-! ## Theorems -/


/-- C5: for the insights planner with count C, cap M = 100, original circle
radius r and safety margin 0.9, a place listing requested with C > M is
issued at radius max(minimum radius 50, floor(r * sqrt(M / C) * 0.9)); in
particular for C = 1000, r = 5000 the new radius is exactly 1423. -/
theorem claim_C5 :
    insightsEffectiveRadius 1000 5000 = 1423 ∧
    ∀ (totalCount : Nat) (radius : ℝ), 100 < totalCount → radius ≠ 0 →
      insightsEffectiveRadius totalCount radius
        = max 50 ((⌊radius * Real.sqrt (100 / (totalCount : ℝ)) * 0.9⌋ : ℤ) : ℝ) := by
  constructor
  · have h10 : Real.sqrt (100 / ((1000 : Nat) : ℝ)) = Real.sqrt (1 / 10) := by norm_num
    have hnn : (0 : ℝ) ≤ 1 / 10 := by norm_num
    have hs := Real.sq_sqrt hnn
    have hpos := Real.sqrt_nonneg (1 / 10 : ℝ)
    have hlow : (1423 : ℝ) ≤ 5000 * (Real.sqrt (1 / 10) * 0.9) := by
      nlinarith [hs, hpos]
    have hhigh : 5000 * (Real.sqrt (1 / 10) * 0.9) < 1424 := by
      nlinarith [hs, hpos]
    have hfl : ⌊(5000 : ℝ) * (Real.sqrt (1 / 10) * 0.9)⌋ = 1423 :=
      Int.floor_eq_iff.mpr ⟨by exact_mod_cast hlow, by push_cast; linarith⟩
    rw [insightsEffectiveRadius, if_pos (by norm_num), h10, hfl]
    norm_num
  · intro totalCount radius hc hr
    rw [insightsEffectiveRadius, if_pos ⟨hc, hr⟩, mul_assoc]

/-- Witness for C5 at C = 1000, r = 5000. -/
theorem claim_C5_witness :
    ((100 < 1000) ∧ (5000 : ℝ) ≠ 0) ∧
    insightsEffectiveRadius 1000 5000
      = max 50 ((⌊(5000 : ℝ) * Real.sqrt (100 / ((1000 : Nat) : ℝ)) * 0.9⌋ : ℤ) : ℝ) :=
  ⟨⟨by norm_num, by norm_num⟩, claim_C5.2 1000 5000 (by norm_num) (by norm_num)⟩

/-- C6: the retrying client retries only on status 429 (and on network
failures), returns any non-429 response immediately after one request with
no delay, and waits baseDelay * 2^n before retry n: three consecutive 429
responses followed by a 200 yield exactly 4 requests with delays
[base, 2*base, 4*base] and the 200 returned; a network failure followed by a
200 yields 2 requests with one base delay and the 200 returned. -/
theorem claim_C6 :
    (∀ (f : Nat → FetchOutcome) (maxRetries baseDelay s : Nat) (b : String),
        s ≠ 429 → f 0 = FetchOutcome.resp s b →
        fetchWithRetry f maxRetries baseDelay = ⟨Except.ok (s, b), 1, []⟩) ∧
    (∀ baseDelay : Nat,
        fetchWithRetry
            (fun n => if n < 3 then FetchOutcome.resp 429 "rate limited"
                      else FetchOutcome.resp 200 "OK") 3 baseDelay
          = ⟨Except.ok (200, "OK"), 4, [baseDelay, 2 * baseDelay, 4 * baseDelay]⟩) ∧
    (∀ (baseDelay : Nat) (m : String),
        fetchWithRetry
            (fun n => if n = 0 then FetchOutcome.netErr m
                      else FetchOutcome.resp 200 "OK") 3 baseDelay
          = ⟨Except.ok (200, "OK"), 2, [baseDelay]⟩) := by
  refine ⟨?_, ?_, ?_⟩
  · intro f maxRetries baseDelay s b hs hf
    rw [fetchWithRetry, fetchWithRetryGo]
    simp only [hf]
    rw [if_pos (Or.inr hs)]
  · intro baseDelay
    rw [fetchWithRetry]
    simp only [fetchWithRetryGo, responseOk]
    norm_num
    constructor
    · omega
    · ring
  · intro baseDelay m
    rw [fetchWithRetry]
    simp only [fetchWithRetryGo, responseOk]
    norm_num

/-- Witness for C6 at a concrete non-429 response. -/
theorem claim_C6_witness :
    (404 ≠ 429) ∧
    fetchWithRetry (fun _ => FetchOutcome.resp 404 "not found") 3 1000
      = ⟨Except.ok (404, "not found"), 1, []⟩ :=
  ⟨by decide,
   claim_C6.1 (fun _ => FetchOutcome.resp 404 "not found") 3 1000 404 "not found"
     (by decide) rfl⟩

/-- Assignment to the key at the head of the object. -/
theorem upsert_cons_self (tl : List (String × ResultEntry)) (k : String) (v0 v : ResultEntry) :
    upsert ((k, v0) :: tl) k v = (k, v) :: tl := by
  simp [upsert]

/-- Assignment to a key different from the head of the object. -/
theorem upsert_cons_ne (tl : List (String × ResultEntry)) (k0 k : String) (v0 v : ResultEntry)
    (h : k0 ≠ k) : upsert ((k0, v0) :: tl) k v = (k0, v0) :: upsert tl k v := by
  simp [upsert, h]

/-- Looking up the assigned key after an assignment finds the new value. -/
theorem lookup_upsert_self (l : List (String × ResultEntry)) (k : String) (v : ResultEntry) :
    (upsert l k v).lookup k = some v := by
  induction l with
  | nil => simp [upsert, List.lookup_cons]
  | cons hd tl ih =>
    obtain ⟨k0, v0⟩ := hd
    by_cases h : k0 = k
    · subst h
      rw [upsert_cons_self, List.lookup_cons]
      simp
    · rw [upsert_cons_ne _ _ _ _ _ h, List.lookup_cons, beq_false_of_ne (Ne.symm h)]
      exact ih

/-- Looking up a different key after an assignment is unchanged. -/
theorem lookup_upsert_ne (l : List (String × ResultEntry)) (k cid : String) (v : ResultEntry)
    (h : k ≠ cid) : (upsert l k v).lookup cid = l.lookup cid := by
  induction l with
  | nil => simp [upsert, List.lookup_cons, beq_false_of_ne (Ne.symm h)]
  | cons hd tl ih =>
    obtain ⟨k0, v0⟩ := hd
    by_cases hk : k0 = k
    · subst hk
      rw [upsert_cons_self, List.lookup_cons, List.lookup_cons,
        beq_false_of_ne (Ne.symm h)]
    · rw [upsert_cons_ne _ _ _ _ _ hk, List.lookup_cons, List.lookup_cons]
      cases hbe : cid == k0 with
      | true => rfl
      | false => exact ih

/-- Key membership after an assignment. -/
theorem mem_keys_upsert (l : List (String × ResultEntry)) (k v cid) :
    cid ∈ (upsert l k v).map Prod.fst ↔ cid ∈ l.map Prod.fst ∨ cid = k := by
  induction l with
  | nil => simp [upsert]
  | cons hd tl ih =>
    obtain ⟨k0, v0⟩ := hd
    by_cases hk : k0 = k
    · subst hk
      rw [upsert_cons_self]
      simp
      tauto
    · rw [upsert_cons_ne _ _ _ _ _ hk]
      simp [ih]
      tauto

/-- Assignment preserves distinctness of the keys. -/
theorem nodup_keys_upsert (l : List (String × ResultEntry)) (k v)
    (h : (l.map Prod.fst).Nodup) : ((upsert l k v).map Prod.fst).Nodup := by
  induction l with
  | nil => simp [upsert]
  | cons hd tl ih =>
    obtain ⟨k0, v0⟩ := hd
    simp only [List.map_cons, List.nodup_cons] at h
    by_cases hk : k0 = k
    · subst hk
      rw [upsert_cons_self]
      simp only [List.map_cons, List.nodup_cons]
      exact h
    · rw [upsert_cons_ne _ _ _ _ _ hk]
      simp only [List.map_cons, List.nodup_cons]
      refine ⟨?_, ih h.2⟩
      rw [mem_keys_upsert]
      rintro (hmem | hek)
      · exact h.1 hmem
      · exact hk hek

/-- Step characterization: a request normalizing to a meta-tool id only
stores the recursion error. -/
theorem dispatchStep_meta (run : String → JVal → ToolOutcome) (st : DispatchState)
    (tid : String) (args : Option JVal) (ht : tid ≠ "")
    (hmeta : canonicalId tid = "execute-plan" ∨ canonicalId tid = "plan-query") :
    dispatchStep run st ⟨some tid, args⟩
      = ⟨upsert st.results (canonicalId tid) (ResultEntry.errorMsg recursionMsg), st.calls⟩ := by
  rw [dispatchStep, if_neg ht]
  simp only [if_pos hmeta]

/-- Step characterization: a known, non-meta request runs the tool and
stores its outcome, recording the invocation. -/
theorem dispatchStep_known (run : String → JVal → ToolOutcome) (st : DispatchState)
    (tid : String) (args : Option JVal) (ht : tid ≠ "")
    (hmeta : ¬(canonicalId tid = "execute-plan" ∨ canonicalId tid = "plan-query"))
    (hknown : knownTools.contains (canonicalId tid) = true) :
    dispatchStep run st ⟨some tid, args⟩
      = (match run (canonicalId tid) (args.getD (JVal.jobj [])) with
         | ToolOutcome.ok v =>
           ⟨upsert st.results (canonicalId tid) (ResultEntry.value v),
             st.calls ++ [(canonicalId tid, args.getD (JVal.jobj []))]⟩
         | ToolOutcome.throws m =>
           ⟨upsert st.results (canonicalId tid)
               (ResultEntry.errorMsg (if m = "" then unknownToolErrMsg else m)),
             st.calls ++ [(canonicalId tid, args.getD (JVal.jobj []))]⟩) := by
  rw [dispatchStep, if_neg ht]
  simp only [if_neg hmeta, hknown, if_pos]

/-- Step characterization: an unknown, non-meta request stores an empty
object without any invocation. -/
theorem dispatchStep_unknown (run : String → JVal → ToolOutcome) (st : DispatchState)
    (tid : String) (args : Option JVal) (ht : tid ≠ "")
    (hmeta : ¬(canonicalId tid = "execute-plan" ∨ canonicalId tid = "plan-query"))
    (hknown : knownTools.contains (canonicalId tid) = false) :
    dispatchStep run st ⟨some tid, args⟩
      = ⟨upsert st.results (canonicalId tid) ResultEntry.emptyObj, st.calls⟩ := by
  rw [dispatchStep, if_neg ht]
  simp only [if_neg hmeta, hknown, Bool.false_eq_true, if_false]

/-- Step characterization specialized to a returning tool. -/
theorem dispatchStep_known_ok (run : String → JVal → ToolOutcome) (st : DispatchState)
    (tid : String) (args : Option JVal) (v : JVal) (ht : tid ≠ "")
    (hmeta : ¬(canonicalId tid = "execute-plan" ∨ canonicalId tid = "plan-query"))
    (hknown : knownTools.contains (canonicalId tid) = true)
    (hrun : run (canonicalId tid) (args.getD (JVal.jobj [])) = ToolOutcome.ok v) :
    dispatchStep run st ⟨some tid, args⟩
      = ⟨upsert st.results (canonicalId tid) (ResultEntry.value v),
          st.calls ++ [(canonicalId tid, args.getD (JVal.jobj []))]⟩ := by
  rw [dispatchStep_known run st tid args ht hmeta hknown, hrun]

/-- Step characterization specialized to a throwing tool. -/
theorem dispatchStep_known_throws (run : String → JVal → ToolOutcome) (st : DispatchState)
    (tid : String) (args : Option JVal) (m : String) (ht : tid ≠ "")
    (hmeta : ¬(canonicalId tid = "execute-plan" ∨ canonicalId tid = "plan-query"))
    (hknown : knownTools.contains (canonicalId tid) = true)
    (hrun : run (canonicalId tid) (args.getD (JVal.jobj [])) = ToolOutcome.throws m) :
    dispatchStep run st ⟨some tid, args⟩
      = ⟨upsert st.results (canonicalId tid)
            (ResultEntry.errorMsg (if m = "" then unknownToolErrMsg else m)),
          st.calls ++ [(canonicalId tid, args.getD (JVal.jobj []))]⟩ := by
  rw [dispatchStep_known run st tid args ht hmeta hknown, hrun]

/-- A plan item that normalizes to `cid` drives the `results` entry at `cid`
to exactly the entry `requestEntry` describes. -/
theorem dispatchStep_lookup_hit (run : String → JVal → ToolOutcome) (st : DispatchState)
    (it : PlanItem) (cid : String) (h : itemCanonical it = some cid) :
    ((dispatchStep run st it).results).lookup cid = some (requestEntry run cid it.args) := by
  obtain ⟨tool, args⟩ := it
  cases tool with
  | none => exact absurd h (by simp [itemCanonical])
  | some tid =>
    rw [itemCanonical] at h
    by_cases ht : tid = ""
    · rw [if_pos ht] at h; exact absurd h (by simp)
    · rw [if_neg ht] at h
      have h2 : canonicalId tid = cid := Option.some.inj h
      subst h2
      rw [requestEntry]
      by_cases hmeta : canonicalId tid = "execute-plan" ∨ canonicalId tid = "plan-query"
      · rw [dispatchStep_meta run st tid args ht hmeta, if_pos hmeta]
        exact lookup_upsert_self _ _ _
      · rw [if_neg hmeta]
        cases hknown : knownTools.contains (canonicalId tid) with
        | true =>
          rw [dispatchStep_known run st tid args ht hmeta hknown]
          simp only [eq_self_iff_true, if_true]
          cases run (canonicalId tid) (args.getD (JVal.jobj [])) with
          | ok v => exact lookup_upsert_self _ _ _
          | throws m => exact lookup_upsert_self _ _ _
        | false =>
          rw [dispatchStep_unknown run st tid args ht hmeta hknown]
          simp only [Bool.false_eq_true, if_false]
          exact lookup_upsert_self _ _ _

/-- A plan item that does not normalize to `cid` leaves the `results` entry
at `cid` unchanged. -/
theorem dispatchStep_lookup_miss (run : String → JVal → ToolOutcome) (st : DispatchState)
    (it : PlanItem) (cid : String) (h : itemCanonical it ≠ some cid) :
    ((dispatchStep run st it).results).lookup cid = st.results.lookup cid := by
  obtain ⟨tool, args⟩ := it
  cases tool with
  | none => rfl
  | some tid =>
    rw [itemCanonical] at h
    by_cases ht : tid = ""
    · rw [dispatchStep, if_pos ht]
    · rw [if_neg ht] at h
      have hne : canonicalId tid ≠ cid := fun he => h (congrArg some he)
      by_cases hmeta : canonicalId tid = "execute-plan" ∨ canonicalId tid = "plan-query"
      · rw [dispatchStep_meta run st tid args ht hmeta]
        exact lookup_upsert_ne _ _ _ _ hne
      · cases hknown : knownTools.contains (canonicalId tid) with
        | true =>
          rw [dispatchStep_known run st tid args ht hmeta hknown]
          cases run (canonicalId tid) (args.getD (JVal.jobj [])) with
          | ok v => exact lookup_upsert_ne _ _ _ _ hne
          | throws m => exact lookup_upsert_ne _ _ _ _ hne
        | false =>
          rw [dispatchStep_unknown run st tid args ht hmeta hknown]
          exact lookup_upsert_ne _ _ _ _ hne

/-- Unfolding `lastRequestFor` over the head of the plan. -/
theorem lastRequestFor_cons (it : PlanItem) (rest : List PlanItem) (cid : String) :
    lastRequestFor (it :: rest) cid
      = (lastRequestFor rest cid).or
          (if itemCanonical it = some cid then some it else none) := by
  rw [lastRequestFor, List.reverse_cons, List.find?_append]
  by_cases hhit : itemCanonical it = some cid
  · simp [lastRequestFor, List.find?, hhit]
  · simp [lastRequestFor, List.find?, hhit]

/-- The dispatcher's `results` entry at a canonical id reflects the last
request of the plan that normalizes to it (folding from any start state). -/
theorem lookup_dispatch_foldl (run : String → JVal → ToolOutcome) (plan : List PlanItem)
    (st : DispatchState) (cid : String) :
    ((plan.foldl (dispatchStep run) st).results).lookup cid
      = match lastRequestFor plan cid with
        | some it => some (requestEntry run cid it.args)
        | none => st.results.lookup cid := by
  induction plan generalizing st with
  | nil => rfl
  | cons it rest ih =>
    rw [List.foldl_cons, ih, lastRequestFor_cons]
    cases hrest : lastRequestFor rest cid with
    | some j => rfl
    | none =>
      by_cases hhit : itemCanonical it = some cid
      · rw [if_pos hhit]
        exact dispatchStep_lookup_hit run st it cid hhit
      · rw [if_neg hhit]
        exact dispatchStep_lookup_miss run st it cid hhit

/-- One dispatch step only ever appends invocations of registry tools. -/
theorem dispatchStep_calls_sub (run : String → JVal → ToolOutcome) (st : DispatchState)
    (it : PlanItem) :
    ∀ c ∈ (dispatchStep run st it).calls, c ∈ st.calls ∨ c.1 ∈ knownTools := by
  obtain ⟨tool, args⟩ := it
  cases tool with
  | none => exact fun c hc => Or.inl hc
  | some tid =>
    by_cases ht : tid = ""
    · rw [dispatchStep, if_pos ht]
      exact fun c hc => Or.inl hc
    · by_cases hmeta : canonicalId tid = "execute-plan" ∨ canonicalId tid = "plan-query"
      · rw [dispatchStep_meta run st tid args ht hmeta]
        exact fun c hc => Or.inl hc
      · cases hknown : knownTools.contains (canonicalId tid) with
        | true =>
          have hk : canonicalId tid ∈ knownTools := by
            have h3 := hknown
            simp only [List.contains_eq_any_beq, List.any_eq_true, beq_iff_eq] at h3
            obtain ⟨x, hx, hxe⟩ := h3
            exact hxe ▸ hx
          cases hrun : run (canonicalId tid) (args.getD (JVal.jobj [])) with
          | ok v =>
            rw [dispatchStep_known_ok run st tid args v ht hmeta hknown hrun]
            intro c hc
            rcases List.mem_append.mp hc with hmem | hone
            · exact Or.inl hmem
            · rw [List.mem_singleton.mp hone]
              exact Or.inr hk
          | throws m =>
            rw [dispatchStep_known_throws run st tid args m ht hmeta hknown hrun]
            intro c hc
            rcases List.mem_append.mp hc with hmem | hone
            · exact Or.inl hmem
            · rw [List.mem_singleton.mp hone]
              exact Or.inr hk
        | false =>
          rw [dispatchStep_unknown run st tid args ht hmeta hknown]
          exact fun c hc => Or.inl hc

/-- Every invocation the dispatcher performs targets a tool of the fixed
switch registry (folding from any start state with that property). -/
theorem dispatch_calls_known (run : String → JVal → ToolOutcome) (plan : List PlanItem)
    (st : DispatchState) (hst : ∀ c ∈ st.calls, c.1 ∈ knownTools) :
    ∀ c ∈ (plan.foldl (dispatchStep run) st).calls, c.1 ∈ knownTools := by
  induction plan generalizing st with
  | nil => exact hst
  | cons it rest ih =>
    rw [List.foldl_cons]
    refine ih _ ?_
    intro c hc
    rcases dispatchStep_calls_sub run st it c hc with hmem | hk
    · exact hst c hmem
    · exact hk

/-- The dispatcher's `results` keys stay distinct (folding from any start
state with distinct keys). -/
theorem nodup_keys_dispatch_foldl (run : String → JVal → ToolOutcome) (plan : List PlanItem)
    (st : DispatchState) (hst : (st.results.map Prod.fst).Nodup) :
    (((plan.foldl (dispatchStep run) st).results).map Prod.fst).Nodup := by
  induction plan generalizing st with
  | nil => exact hst
  | cons it rest ih =>
    rw [List.foldl_cons]
    refine ih _ ?_
    obtain ⟨tool, args⟩ := it
    cases tool with
    | none => exact hst
    | some tid =>
      by_cases ht : tid = ""
      · rw [dispatchStep, if_pos ht]
        exact hst
      · by_cases hmeta : canonicalId tid = "execute-plan" ∨ canonicalId tid = "plan-query"
        · rw [dispatchStep_meta run st tid args ht hmeta]
          exact nodup_keys_upsert _ _ _ hst
        · cases hknown : knownTools.contains (canonicalId tid) with
          | true =>
            cases hrun : run (canonicalId tid) (args.getD (JVal.jobj [])) with
            | ok v =>
              rw [dispatchStep_known_ok run st tid args v ht hmeta hknown hrun]
              exact nodup_keys_upsert _ _ _ hst
            | throws m =>
              rw [dispatchStep_known_throws run st tid args m ht hmeta hknown hrun]
              exact nodup_keys_upsert _ _ _ hst
          | false =>
            rw [dispatchStep_unknown run st tid args ht hmeta hknown]
            exact nodup_keys_upsert _ _ _ hst

/-- A plan item whose tool field is missing, non-string or empty leaves the
dispatcher state untouched. -/
theorem dispatchStep_skip (run : String → JVal → ToolOutcome) (st : DispatchState)
    (it : PlanItem) (h : itemCanonical it = none) : dispatchStep run st it = st := by
  obtain ⟨tool, args⟩ := it
  cases tool with
  | none => rfl
  | some tid =>
    rw [itemCanonical] at h
    by_cases ht : tid = ""
    · rw [dispatchStep, if_pos ht]
    · rw [if_neg ht] at h
      exact absurd h (by simp)

/-- C7: for every plan, two requests normalizing to the same canonical id
produce exactly one result entry (the keys are distinct), namely the entry of
the later request; and a request whose canonical id names a meta-tool
(execute-plan or plan-query) produces the explicit recursion-prevented error
entry while its tool is never executed (every performed invocation targets a
registry tool, and the meta ids are not in the registry). -/
theorem claim_C7 :
    (∀ (run : String → JVal → ToolOutcome) (plan : List PlanItem) (cid : String),
        ((executePlan run (some plan)).results).lookup cid
          = match lastRequestFor plan cid with
            | some it => some (requestEntry run cid it.args)
            | none => none) ∧
    (∀ (run : String → JVal → ToolOutcome) (maybePlan : Option (List PlanItem)),
        (((executePlan run maybePlan).results).map Prod.fst).Nodup) ∧
    (∀ (run : String → JVal → ToolOutcome) (maybePlan : Option (List PlanItem))
        (c : String × JVal), c ∈ (executePlan run maybePlan).calls →
        c.1 ≠ "execute-plan" ∧ c.1 ≠ "plan-query") ∧
    (∀ (run : String → JVal → ToolOutcome) (it : PlanItem) (cid : String),
        itemCanonical it = some cid →
        cid = "execute-plan" ∨ cid = "plan-query" →
        requestEntry run cid it.args = ResultEntry.errorMsg recursionMsg) := by
  refine ⟨?_, ?_, ?_, ?_⟩
  · intro run plan cid
    rw [executePlan, lookup_dispatch_foldl]
    cases lastRequestFor plan cid with
    | some j => rfl
    | none => rfl
  · intro run maybePlan
    cases maybePlan with
    | none => simp [executePlan]
    | some plan =>
      rw [executePlan]
      exact nodup_keys_dispatch_foldl run plan ⟨[], []⟩ (by simp)
  · intro run maybePlan c hc
    cases maybePlan with
    | none => exact absurd hc (by simp [executePlan])
    | some plan =>
      rw [executePlan] at hc
      have hk : c.1 ∈ knownTools :=
        dispatch_calls_known run plan ⟨[], []⟩ (by simp) c hc
      constructor
      · intro he
        rw [he] at hk
        exact absurd hk (by decide)
      · intro he
        rw [he] at hk
        exact absurd hk (by decide)
  · intro run it cid hcan hmeta
    rw [requestEntry, if_pos hmeta]

/-- Witness for C7 on a concrete plan with a duplicate canonical id and a
namespaced meta-tool request. -/
theorem claim_C7_witness :
    ((executePlan (fun _ args => ToolOutcome.ok args)
        (some [⟨some "searchPoiTool", some (JVal.jstr "first")⟩,
               ⟨some "search-poi", some (JVal.jstr "second")⟩,
               ⟨some "functions.executePlanTool", none⟩])).results).lookup "search-poi"
      = some (ResultEntry.value (JVal.jstr "second")) ∧
    ((executePlan (fun _ args => ToolOutcome.ok args)
        (some [⟨some "searchPoiTool", some (JVal.jstr "first")⟩,
               ⟨some "search-poi", some (JVal.jstr "second")⟩,
               ⟨some "functions.executePlanTool", none⟩])).results).lookup "execute-plan"
      = some (ResultEntry.errorMsg recursionMsg) ∧
    ("search-poi" ≠ "execute-plan" ∧ "search-poi" ≠ "plan-query") ∧
    requestEntry (fun _ args => ToolOutcome.ok args) "execute-plan" none
      = ResultEntry.errorMsg recursionMsg :=
  ⟨(claim_C7.1 (fun _ args => ToolOutcome.ok args)
      [⟨some "searchPoiTool", some (JVal.jstr "first")⟩,
       ⟨some "search-poi", some (JVal.jstr "second")⟩,
       ⟨some "functions.executePlanTool", none⟩] "search-poi").trans rfl,
   (claim_C7.1 (fun _ args => ToolOutcome.ok args)
      [⟨some "searchPoiTool", some (JVal.jstr "first")⟩,
       ⟨some "search-poi", some (JVal.jstr "second")⟩,
       ⟨some "functions.executePlanTool", none⟩] "execute-plan").trans rfl,
   claim_C7.2.2.1 (fun _ args => ToolOutcome.ok args)
      (some [⟨some "searchPoiTool", some (JVal.jstr "first")⟩,
             ⟨some "search-poi", some (JVal.jstr "second")⟩,
             ⟨some "functions.executePlanTool", none⟩])
      ("search-poi", JVal.jstr "first")
      (List.mem_cons_self ("search-poi", JVal.jstr "first")
        [("search-poi", JVal.jstr "second")]),
   claim_C7.2.2.2 (fun _ args => ToolOutcome.ok args)
      ⟨some "functions.executePlanTool", none⟩ "execute-plan" rfl (Or.inl rfl)⟩

/-- C10: the dispatcher's execute function returns normally on every input
(it is a total function in the embedding, mirroring the source's try/catch):
a non-array plan yields the empty result object; an item whose tool field is
missing, non-string or empty is skipped and contributes nothing; and a tool
implementation that throws contributes an error-message entry under its
canonical id while the remaining items still execute. -/
theorem claim_C10 :
    (∀ run, executePlan run none = ⟨[], []⟩) ∧
    (∀ (run : String → JVal → ToolOutcome) (it : PlanItem) (rest : List PlanItem),
        itemCanonical it = none →
        executePlan run (some (it :: rest)) = executePlan run (some rest)) ∧
    (∀ (run : String → JVal → ToolOutcome) (tid : String) (args : Option JVal)
        (m : String) (rest : List PlanItem),
        tid ≠ "" →
        ¬(canonicalId tid = "execute-plan" ∨ canonicalId tid = "plan-query") →
        knownTools.contains (canonicalId tid) = true →
        run (canonicalId tid) (args.getD (JVal.jobj [])) = ToolOutcome.throws m →
        m ≠ "" →
        executePlan run (some (PlanItem.mk (some tid) args :: rest))
          = rest.foldl (dispatchStep run)
              ⟨[(canonicalId tid, ResultEntry.errorMsg m)],
               [(canonicalId tid, args.getD (JVal.jobj []))]⟩) := by
  refine ⟨?_, ?_, ?_⟩
  · intro run
    rfl
  · intro run it rest h
    rw [executePlan, executePlan, List.foldl_cons, dispatchStep_skip run _ it h]
  · intro run tid args m rest ht hmeta hknown hrun hm
    rw [executePlan, List.foldl_cons,
      dispatchStep_known_throws run ⟨[], []⟩ tid args m ht hmeta hknown hrun, if_neg hm]
    rfl

/-- Witness for C10 at a concrete plan whose first item throws. -/
theorem claim_C10_witness :
    (("get-weather" ≠ "" ∧ "boom" ≠ "") ∧
      (fun (_ : String) (_ : JVal) => ToolOutcome.throws "boom") (canonicalId "get-weather") ((none : Option JVal).getD (JVal.jobj []))
        = ToolOutcome.throws "boom") ∧
    executePlan (fun (_ : String) (_ : JVal) => ToolOutcome.throws "boom") (some [PlanItem.mk (some "get-weather") none,
                               PlanItem.mk (some "search-poi") none])
      = [PlanItem.mk (some "search-poi") none].foldl (dispatchStep (fun (_ : String) (_ : JVal) => ToolOutcome.throws "boom"))
          ⟨[("get-weather", ResultEntry.errorMsg "boom")],
           [("get-weather", JVal.jobj [])]⟩ :=
  ⟨⟨⟨by decide, by decide⟩, rfl⟩,
   (claim_C10.2.2 (fun (_ : String) (_ : JVal) => ToolOutcome.throws "boom") "get-weather" none "boom" [PlanItem.mk (some "search-poi") none]
      (by decide) (by decide) (by decide) rfl (by decide)).trans rfl⟩

/-- Characterization of features emitted from a TomTom search payload:
point geometry, the given source tag, nonzero finite coordinates, and
coordinates taken verbatim from the payload. -/
theorem mem_tomtomFeatures (source : String) (d : Option TomTomPayload) (f : MapFeature)
    (h : f ∈ tomtomFeatures source d) :
    f.geomType = "Point" ∧ f.props.source = source ∧
    (∃ la lo, f.lat = some la ∧ f.lon = some lo ∧ la ≠ 0 ∧ lo ≠ 0) ∧
    (f.lon, f.lat) ∈ tomtomPairs d := by
  cases d with
  | none => exact absurd h (by simp [tomtomFeatures])
  | some p =>
    cases hres : p.results with
    | none =>
      rw [tomtomFeatures, hres] at h
      exact absurd h (by simp)
    | some rs =>
      rw [tomtomFeatures, hres] at h
      rw [tomtomPairs, hres]
      rw [List.mem_filterMap] at h
      obtain ⟨r, hr, hg⟩ := h
      rw [List.mem_filterMap]
      obtain ⟨rpos, rpoi, raddr⟩ := r
      cases rpos with
      | none => exact absurd hg (by simp [tomtomResultFeature])
      | some pos =>
        obtain ⟨pla, plo⟩ := pos
        cases pla with
        | none => exact absurd hg (by simp [tomtomResultFeature])
        | some la =>
          cases plo with
          | none => exact absurd hg (by simp [tomtomResultFeature])
          | some lo =>
            rw [tomtomResultFeature] at hg
            simp only at hg
            by_cases hnz : la ≠ 0 ∧ lo ≠ 0
            · rw [if_pos hnz] at hg
              have hf := Option.some.inj hg
              subst hf
              refine ⟨rfl, rfl, ⟨la, lo, rfl, rfl, hnz.1, hnz.2⟩, ?_⟩
              exact ⟨_, hr, rfl⟩
            · rw [if_neg hnz] at hg
              exact absurd hg (by simp)

/-- Characterization of features emitted from a Google Place Details
payload. -/
theorem mem_googlePlaceFeatures (d : Option GooglePlacePayload) (f : MapFeature)
    (h : f ∈ googlePlaceFeatures d) :
    f.geomType = "Point" ∧ f.props.source = "Google Place Details" ∧
    (∃ la lo, f.lat = some la ∧ f.lon = some lo ∧ la ≠ 0 ∧ lo ≠ 0) ∧
    (f.lon, f.lat) ∈ googlePairs d := by
  cases d with
  | none => exact absurd h (by simp [googlePlaceFeatures])
  | some g =>
    cases hres : g.result with
    | none =>
      rw [googlePlaceFeatures, hres] at h
      exact absurd h (by simp)
    | some place =>
      rw [googlePlaceFeatures, hres] at h
      rw [googlePairs, hres]
      obtain ⟨ploc, pdisp, paddr, prat, pprice⟩ := place
      simp only at h ⊢
      cases ploc with
      | none =>
        exact absurd h (by simp)
      | some loc =>
        simp only at h ⊢
        obtain ⟨lla, llo⟩ := loc
        cases lla with
        | none => exact absurd h (by simp)
        | some la =>
          cases llo with
          | none => exact absurd h (by simp)
          | some lo =>
            simp only at h
            by_cases hnz : la ≠ 0 ∧ lo ≠ 0
            · rw [if_pos hnz] at h
              rw [List.mem_singleton] at h
              subst h
              exact ⟨rfl, rfl, ⟨la, lo, rfl, rfl, hnz.1, hnz.2⟩, List.mem_singleton.mpr rfl⟩
            · rw [if_neg hnz] at h
              exact absurd h (by simp)

/-- Characterization of features emitted from an events payload. -/
theorem mem_eventsFeatures (d : Option EventsPayload) (f : MapFeature)
    (h : f ∈ eventsFeatures d) :
    f.geomType = "Point" ∧ f.props.source = "PredictHQ Events" ∧
    (f.lon, f.lat) ∈ eventPairs d := by
  cases d with
  | none => exact absurd h (by simp [eventsFeatures])
  | some p =>
    cases hres : p.results with
    | none =>
      rw [eventsFeatures, hres] at h
      exact absurd h (by simp)
    | some rs =>
      rw [eventsFeatures, hres] at h
      rw [eventPairs, hres]
      rw [List.mem_filterMap] at h
      obtain ⟨ev, hev, hg⟩ := h
      rw [List.mem_filterMap]
      cases hloc : ev.location with
      | none => rw [eventFeature, hloc] at hg; exact absurd hg (by simp)
      | some loc =>
        cases hc : loc.coordinates with
        | none =>
          rw [eventFeature, hloc] at hg
          simp only [hc] at hg
          exact absurd hg (by simp)
        | some c =>
          rw [eventFeature, hloc] at hg
          simp only [hc] at hg
          have hf := Option.some.inj hg
          subst hf
          refine ⟨rfl, rfl, ⟨ev, hev, ?_⟩⟩
          rw [hloc]
          simp [hc]

/-- Characterization of features emitted from an IP-location payload. -/
theorem mem_ipFeatures (d : Option IpLocationPayload) (f : MapFeature)
    (h : f ∈ ipFeatures d) :
    f.geomType = "Point" ∧ f.props.source = "IP Location" ∧
    (∃ la lo, f.lat = some la ∧ f.lon = some lo ∧ la ≠ 0 ∧ lo ≠ 0) ∧
    (f.lon, f.lat) ∈ ipPairs d := by
  cases d with
  | none => exact absurd h (by simp [ipFeatures])
  | some ip =>
    rw [ipFeatures] at h
    rw [ipPairs]
    cases hla : ip.latitude with
    | none => rw [hla] at h; exact absurd h (by simp)
    | some la =>
      cases hlo : ip.longitude with
      | none => rw [hla, hlo] at h; exact absurd h (by simp)
      | some lo =>
        rw [hla, hlo] at h
        simp only at h
        by_cases hnz : la ≠ 0 ∧ lo ≠ 0
        · rw [if_pos hnz] at h
          rw [List.mem_singleton] at h
          subst h
          exact ⟨rfl, rfl, ⟨la, lo, rfl, rfl, hnz.1, hnz.2⟩, List.mem_singleton.mpr rfl⟩
        · rw [if_neg hnz] at h
          exact absurd h (by simp)

/-- Characterization of features emitted from a place-details-by-id
payload. -/
theorem mem_placeByIdFeatures (d : Option PlaceByIdPayload) (f : MapFeature)
    (h : f ∈ placeByIdFeatures d) :
    f.geomType = "Point" ∧ f.props.source = "TomTom Place Details" ∧
    (f.lon, f.lat) ∈ placeByIdPairs d := by
  cases d with
  | none => exact absurd h (by simp [placeByIdFeatures])
  | some p =>
    rw [placeByIdFeatures] at h
    rw [placeByIdPairs]
    cases hpos : p.position with
    | none => rw [hpos] at h; exact absurd h (by simp)
    | some pos =>
      rw [hpos] at h
      rw [List.mem_singleton] at h
      subst h
      exact ⟨rfl, rfl, List.mem_singleton.mpr rfl⟩

/-- Dissection of membership in the synthesizer's feature list into the six
provider segments (the insights segment is empty). -/
theorem mem_formatMapDataFeatures (rd : RawData) (f : MapFeature)
    (h : f ∈ formatMapDataFeatures rd) :
    f ∈ tomtomFeatures "TomTom Fuzzy Search" rd.tomtomData ∨
    f ∈ googlePlaceFeatures rd.googlePlaceData ∨
    f ∈ eventsFeatures rd.eventsData ∨
    f ∈ ipFeatures rd.ipLocationData ∨
    f ∈ tomtomFeatures "TomTom POI Search" rd.searchPoiData ∨
    f ∈ placeByIdFeatures rd.placeByIdData := by
  rw [formatMapDataFeatures] at h
  simp only [insightsFeatures, List.mem_append, List.not_mem_nil, false_or, or_false] at h
  tauto

/-- C2: a feature emitted by the synthesizer at exactly (0,0) can only come
from a payload that genuinely reported the finite pair (0,0) among its
coordinate slots; and entries from the Google Places Insights provider
contribute zero features (the feature list does not depend on that slot at
all). -/
theorem claim_C2 :
    (∀ (rd : RawData) (f : MapFeature), f ∈ (formatMapData rd).features →
        f.lon = some 0 → f.lat = some 0 →
        (some (0 : ℚ), some (0 : ℚ)) ∈ rawCoordinatePairs rd) ∧
    (∀ d : Option InsightsPayload, insightsFeatures d = []) ∧
    (∀ (rd : RawData) (x : Option InsightsPayload),
        (formatMapData { rd with googleInsightsData := x }).features
          = (formatMapData rd).features) := by
  refine ⟨?_, fun _ => rfl, fun _ _ => rfl⟩
  intro rd f hmem hlon hlat
  have hp : (f.lon, f.lat) = (some (0 : ℚ), some (0 : ℚ)) := by rw [hlon, hlat]
  rcases mem_formatMapDataFeatures rd f hmem with h | h | h | h | h | h
  · have hpair := (mem_tomtomFeatures _ _ _ h).2.2.2
    rw [hp] at hpair
    simp only [rawCoordinatePairs, List.mem_append]
    tauto
  · have hpair := (mem_googlePlaceFeatures _ _ h).2.2.2
    rw [hp] at hpair
    simp only [rawCoordinatePairs, List.mem_append]
    tauto
  · have hpair := (mem_eventsFeatures _ _ h).2.2
    rw [hp] at hpair
    simp only [rawCoordinatePairs, List.mem_append]
    tauto
  · have hpair := (mem_ipFeatures _ _ h).2.2.2
    rw [hp] at hpair
    simp only [rawCoordinatePairs, List.mem_append]
    tauto
  · have hpair := (mem_tomtomFeatures _ _ _ h).2.2.2
    rw [hp] at hpair
    simp only [rawCoordinatePairs, List.mem_append]
    tauto
  · have hpair := (mem_placeByIdFeatures _ _ h).2.2
    rw [hp] at hpair
    simp only [rawCoordinatePairs, List.mem_append]
    tauto

/-- Witness for C2: an event whose payload genuinely reports [0, 0]. -/
theorem claim_C2_witness :
    (some (0 : ℚ), some (0 : ℚ))
      ∈ rawCoordinatePairs
          { eventsData := some { results := some [{ location := some { coordinates := some (some 0, some 0) } }] } } ∧
    insightsFeatures (some { places := some ["places/a", "places/b"] }) = [] :=
  ⟨claim_C2.1
      { eventsData := some { results := some [{ location := some { coordinates := some (some 0, some 0) } }] } }
      { geomType := "Point", lon := some 0, lat := some 0,
        props := { source := "PredictHQ Events" } }
      (List.mem_singleton.mpr rfl) rfl rfl,
   claim_C2.2.1 (some { places := some ["places/a", "places/b"] })⟩

/-- C9: the synthesizer excludes any TomTom fuzzy-search, TomTom POI-search
or Google Place Details record whose latitude or longitude equals 0 (the
presence check is truthiness): every emitted feature bearing one of those
source tags has nonzero finite coordinates, and concrete records on the
equator or prime meridian produce no feature at all. -/
theorem claim_C9 :
    (∀ (rd : RawData) (f : MapFeature), f ∈ (formatMapData rd).features →
        (f.props.source = "TomTom Fuzzy Search" ∨ f.props.source = "TomTom POI Search" ∨
         f.props.source = "Google Place Details") →
        ∃ la lo, f.lat = some la ∧ f.lon = some lo ∧ la ≠ 0 ∧ lo ≠ 0) ∧
    (formatMapData { tomtomData := some { results := some [{ position := some { lat := some 0, lon := some 5 } }] } }).features = [] ∧
    (formatMapData { searchPoiData := some { results := some [{ position := some { lat := some 7, lon := some 0 } }] } }).features = [] ∧
    (formatMapData { googlePlaceData := some { result := some { location := some { latitude := some 0, longitude := some 9 } } } }).features = [] := by
  refine ⟨?_, rfl, rfl, rfl⟩
  intro rd f hmem hsrc
  rcases mem_formatMapDataFeatures rd f hmem with h | h | h | h | h | h
  · exact (mem_tomtomFeatures _ _ _ h).2.2.1
  · exact (mem_googlePlaceFeatures _ _ h).2.2.1
  · have hs := (mem_eventsFeatures _ _ h).2.1
    rw [hs] at hsrc
    rcases hsrc with he | he | he <;> exact absurd he (by decide)
  · have hs := (mem_ipFeatures _ _ h).2.1
    rw [hs] at hsrc
    rcases hsrc with he | he | he <;> exact absurd he (by decide)
  · exact (mem_tomtomFeatures _ _ _ h).2.2.1
  · have hs := (mem_placeByIdFeatures _ _ h).2.1
    rw [hs] at hsrc
    rcases hsrc with he | he | he <;> exact absurd he (by decide)

/-- Witness for C9 at a concrete fuzzy-search record with nonzero
coordinates. -/
theorem claim_C9_witness :
    ∃ la lo,
      (MapFeature.mk "Point" (some 4) (some 3)
          { source := "TomTom Fuzzy Search" }).lat = some la ∧
      (MapFeature.mk "Point" (some 4) (some 3)
          { source := "TomTom Fuzzy Search" }).lon = some lo ∧
      la ≠ 0 ∧ lo ≠ 0 :=
  claim_C9.1
    { tomtomData := some { results := some [{ position := some { lat := some 3, lon := some 4 } }] } }
    (MapFeature.mk "Point" (some 4) (some 3) { source := "TomTom Fuzzy Search" })
    (List.mem_singleton.mpr rfl) (Or.inl rfl)

/-- A running minimum never exceeds its initial value. -/
theorem foldl_min_le_init {α : Type} (l : List α) (g : α → ℚ) (a : ℚ) :
    l.foldl (fun m q => min m (g q)) a ≤ a := by
  induction l generalizing a with
  | nil => exact le_refl a
  | cons x xs ih => exact le_trans (ih (min a (g x))) (min_le_left _ _)

/-- A running maximum never drops below its initial value. -/
theorem init_le_foldl_max {α : Type} (l : List α) (g : α → ℚ) (a : ℚ) :
    a ≤ l.foldl (fun m q => max m (g q)) a := by
  induction l generalizing a with
  | nil => exact le_refl a
  | cons x xs ih => exact le_trans (le_max_left _ _) (ih (max a (g x)))

/-- A running minimum is below every element folded in. -/
theorem foldl_min_le_mem {α : Type} (l : List α) (g : α → ℚ) (a : ℚ) (x : α)
    (hx : x ∈ l) : l.foldl (fun m q => min m (g q)) a ≤ g x := by
  induction l generalizing a with
  | nil => exact absurd hx (List.not_mem_nil x)
  | cons y ys ih =>
    rcases List.mem_cons.mp hx with he | hm
    · subst he
      exact le_trans (foldl_min_le_init ys g (min a (g x))) (min_le_right _ _)
    · exact ih (min a (g y)) hm

/-- A running maximum is above every element folded in. -/
theorem mem_le_foldl_max {α : Type} (l : List α) (g : α → ℚ) (a : ℚ) (x : α)
    (hx : x ∈ l) : g x ≤ l.foldl (fun m q => max m (g q)) a := by
  induction l generalizing a with
  | nil => exact absurd hx (List.not_mem_nil x)
  | cons y ys ih =>
    rcases List.mem_cons.mp hx with he | hm
    · subst he
      exact le_trans (le_max_right _ _) (init_le_foldl_max ys g (max a (g x)))
    · exact ih (max a (g y)) hm

/-- A list sum is at most its length times an upper bound of its
elements. -/
theorem sum_le_length_mul (l : List ℚ) (c : ℚ) (h : ∀ x ∈ l, x ≤ c) :
    l.sum ≤ (l.length : ℚ) * c := by
  induction l with
  | nil => simp
  | cons x xs ih =>
    have hx := h x (List.mem_cons_self x xs)
    have hxs := ih (fun y hy => h y (List.mem_cons_of_mem x hy))
    rw [List.sum_cons, List.length_cons]
    push_cast
    nlinarith [hx, hxs]

/-- A list sum is at least its length times a lower bound of its
elements. -/
theorem length_mul_le_sum (l : List ℚ) (c : ℚ) (h : ∀ x ∈ l, c ≤ x) :
    (l.length : ℚ) * c ≤ l.sum := by
  induction l with
  | nil => simp
  | cons x xs ih =>
    have hx := h x (List.mem_cons_self x xs)
    have hxs := ih (fun y hy => h y (List.mem_cons_of_mem x hy))
    rw [List.sum_cons, List.length_cons]
    push_cast
    nlinarith [hx, hxs]

/-- The NaN-propagating running sum over genuinely finite values is the
plain sum. -/
theorem optSum_go (l : List ℚ) (a : ℚ) :
    (l.map some).foldl optAdd (some a) = some (a + l.sum) := by
  induction l generalizing a with
  | nil => simp
  | cons x xs ih =>
    rw [List.map_cons, List.foldl_cons]
    rw [show optAdd (some a) (some x) = some (a + x) from rfl, ih]
    rw [List.sum_cons]
    ring_nf

/-- The total of a list of finite JS numbers. -/
theorem optSum_map_some (l : List ℚ) : optSum (l.map some) = some l.sum := by
  rw [optSum, optSum_go]
  rw [zero_add]

/-- Every feature the synthesizer emits has point geometry. -/
theorem features_all_points (rd : RawData) :
    ∀ f ∈ (formatMapData rd).features, f.geomType = "Point" := by
  intro f hf
  rcases mem_formatMapDataFeatures rd f hf with h | h | h | h | h | h
  · exact (mem_tomtomFeatures _ _ _ h).1
  · exact (mem_googlePlaceFeatures _ _ h).1
  · exact (mem_eventsFeatures _ _ h).1
  · exact (mem_ipFeatures _ _ h).1
  · exact (mem_tomtomFeatures _ _ _ h).1
  · exact (mem_placeByIdFeatures _ _ h).1

/-- When every feature is a point, `calculateCenter` folds over all of
them. -/
theorem pointCoordValues_all_points (l : List MapFeature)
    (h : ∀ f ∈ l, f.geomType = "Point") :
    pointCoordValues l = l.map (fun f => (f.lon, f.lat)) := by
  induction l with
  | nil => rfl
  | cons f fs ih =>
    rw [pointCoordValues, List.filterMap_cons, if_pos (h f (List.mem_cons_self f fs))]
    rw [List.map_cons]
    rw [← ih (fun g hg => h g (List.mem_cons_of_mem f hg))]
    rfl

/-- Unfolding the all-points extraction over a point feature. -/
theorem pointCoordValues_cons_pt (f : MapFeature) (fs : List MapFeature)
    (h : f.geomType = "Point") :
    pointCoordValues (f :: fs) = (f.lon, f.lat) :: pointCoordValues fs := by
  rw [pointCoordValues, pointCoordValues, List.filterMap_cons, if_pos h]

/-- Unfolding the finite-coordinate extraction over a finite point
feature. -/
theorem finitePointCoords_cons_fin (f : MapFeature) (fs : List MapFeature)
    (lo la : ℚ) (hpt : f.geomType = "Point") (hlo : f.lon = some lo)
    (hla : f.lat = some la) :
    finitePointCoords (f :: fs) = (lo, la) :: finitePointCoords fs := by
  rw [finitePointCoords, finitePointCoords, List.filterMap_cons, if_pos hpt, hlo, hla]

/-- When every point feature has finite coordinates, the two coordinate
extractions agree pointwise. -/
theorem pointCoordValues_eq_map_finite (l : List MapFeature)
    (hpt : ∀ f ∈ l, f.geomType = "Point")
    (hfin : ∀ f ∈ l, ∃ lo la, f.lon = some lo ∧ f.lat = some la) :
    pointCoordValues l = (finitePointCoords l).map (fun p => (some p.1, some p.2)) := by
  induction l with
  | nil => rfl
  | cons f fs ih =>
    have hptf := hpt f (List.mem_cons_self f fs)
    obtain ⟨lo, la, hlo, hla⟩ := hfin f (List.mem_cons_self f fs)
    rw [pointCoordValues_cons_pt f fs hptf,
      finitePointCoords_cons_fin f fs lo la hptf hlo hla, List.map_cons,
      ih (fun g hg => hpt g (List.mem_cons_of_mem f hg))
        (fun g hg => hfin g (List.mem_cons_of_mem f hg)),
      hlo, hla]

/-- Bounds are present exactly when a finite point feature exists. -/
theorem calculateBounds_ne_none_iff (l : List MapFeature) :
    calculateBounds l ≠ none ↔ finitePointCoords l ≠ [] := by
  rw [calculateBounds]
  cases finitePointCoords l with
  | nil => simp
  | cons p ps => simp

/-- The center is present exactly when a point feature exists. -/
theorem calculateCenter_ne_none_iff (l : List MapFeature) :
    calculateCenter l ≠ none ↔ pointCoordValues l ≠ [] := by
  rw [calculateCenter]
  by_cases h : (pointCoordValues l).isEmpty
  · rw [if_pos h]
    simp only [List.isEmpty_iff] at h
    simp [h]
  · rw [if_neg h]
    simp only [List.isEmpty_iff] at h
    simp [h]

/-- Bounds, when present, are ordered: north is at least south and east at
least west. -/
theorem calculateBounds_ordered (l : List MapFeature) (b : BoundsBox)
    (h : calculateBounds l = some b) : b.south ≤ b.north ∧ b.west ≤ b.east := by
  rw [calculateBounds] at h
  cases hfp : finitePointCoords l with
  | nil => rw [hfp] at h; exact absurd h (by simp)
  | cons p ps =>
    rw [hfp] at h
    have hb := Option.some.inj h
    subst hb
    constructor
    · exact le_trans (foldl_min_le_init ps Prod.snd p.2)
        (init_le_foldl_max ps Prod.snd p.2)
    · exact le_trans (foldl_min_le_init ps Prod.fst p.1)
        (init_le_foldl_max ps Prod.fst p.1)

/-- When every point feature is finite, the center is the coordinate mean
and lies inside the bounds box. -/
theorem calculateCenter_in_bounds (l : List MapFeature) (b : BoundsBox) (c : CenterPoint)
    (hb : calculateBounds l = some b) (hc : calculateCenter l = some c)
    (hpt : ∀ f ∈ l, f.geomType = "Point")
    (hfin : ∀ f ∈ l, ∃ lo la, f.lon = some lo ∧ f.lat = some la) :
    ∃ cla clo, c.lat = some cla ∧ c.lon = some clo ∧
      b.south ≤ cla ∧ cla ≤ b.north ∧ b.west ≤ clo ∧ clo ≤ b.east := by
  rw [calculateBounds] at hb
  cases hfp : finitePointCoords l with
  | nil => rw [hfp] at hb; exact absurd hb (by simp)
  | cons p ps =>
    rw [hfp] at hb
    have hbv := Option.some.inj hb
    subst hbv
    have hmap := pointCoordValues_eq_map_finite l hpt hfin
    rw [hfp] at hmap
    rw [calculateCenter] at hc
    rw [hmap] at hc
    rw [if_neg (by simp)] at hc
    have hcv := Option.some.inj hc
    subst hcv
    have hlats : ((p :: ps).map (fun q => (some q.1, some q.2))).map Prod.snd
        = ((p :: ps).map Prod.snd).map some := by
      simp [List.map_map, Function.comp]
    have hlons : ((p :: ps).map (fun q => (some q.1, some q.2))).map Prod.fst
        = ((p :: ps).map Prod.fst).map some := by
      simp [List.map_map, Function.comp]
    have hlen : ((p :: ps).map (fun q => ((some q.1 : Option ℚ), (some q.2 : Option ℚ)))).length
        = ps.length + 1 := by
      simp
    have hn : (0 : ℚ) < ((ps.length + 1 : Nat) : ℚ) := by positivity
    refine ⟨((p :: ps).map Prod.snd).sum / ((ps.length + 1 : Nat) : ℚ),
           ((p :: ps).map Prod.fst).sum / ((ps.length + 1 : Nat) : ℚ), ?_, ?_, ?_, ?_, ?_, ?_⟩
    · rw [show (CenterPoint.mk
          (optDivNat (optSum (((p :: ps).map (fun q => (some q.1, some q.2))).map Prod.snd))
            ((p :: ps).map (fun q => ((some q.1 : Option ℚ), (some q.2 : Option ℚ)))).length)
          (optDivNat (optSum (((p :: ps).map (fun q => (some q.1, some q.2))).map Prod.fst))
            ((p :: ps).map (fun q => ((some q.1 : Option ℚ), (some q.2 : Option ℚ)))).length)).lat
        = optDivNat (optSum (((p :: ps).map (fun q => (some q.1, some q.2))).map Prod.snd))
            ((p :: ps).map (fun q => ((some q.1 : Option ℚ), (some q.2 : Option ℚ)))).length from rfl]
      rw [hlats, optSum_map_some, hlen]
      rfl
    · rw [show (CenterPoint.mk
          (optDivNat (optSum (((p :: ps).map (fun q => (some q.1, some q.2))).map Prod.snd))
            ((p :: ps).map (fun q => ((some q.1 : Option ℚ), (some q.2 : Option ℚ)))).length)
          (optDivNat (optSum (((p :: ps).map (fun q => (some q.1, some q.2))).map Prod.fst))
            ((p :: ps).map (fun q => ((some q.1 : Option ℚ), (some q.2 : Option ℚ)))).length)).lon
        = optDivNat (optSum (((p :: ps).map (fun q => (some q.1, some q.2))).map Prod.fst))
            ((p :: ps).map (fun q => ((some q.1 : Option ℚ), (some q.2 : Option ℚ)))).length from rfl]
      rw [hlons, optSum_map_some, hlen]
      rfl
    · show ps.foldl (fun m q => min m q.2) p.2
          ≤ (List.map Prod.snd (p :: ps)).sum / ((ps.length + 1 : Nat) : ℚ)
      rw [le_div_iff₀ hn]
      have hall : ∀ x ∈ (p :: ps).map Prod.snd, ps.foldl (fun m q => min m q.2) p.2 ≤ x := by
        intro x hx
        obtain ⟨q, hq, rfl⟩ := List.mem_map.mp hx
        rcases List.mem_cons.mp hq with he | hm
        · subst he
          exact foldl_min_le_init ps Prod.snd q.2
        · exact foldl_min_le_mem ps Prod.snd p.2 q hm
      have hlen2 := length_mul_le_sum ((p :: ps).map Prod.snd) _ hall
      rw [List.length_map, List.length_cons] at hlen2
      linarith [hlen2]
    · show (List.map Prod.snd (p :: ps)).sum / ((ps.length + 1 : Nat) : ℚ)
          ≤ ps.foldl (fun m q => max m q.2) p.2
      rw [div_le_iff₀ hn]
      have hall : ∀ x ∈ (p :: ps).map Prod.snd, x ≤ ps.foldl (fun m q => max m q.2) p.2 := by
        intro x hx
        obtain ⟨q, hq, rfl⟩ := List.mem_map.mp hx
        rcases List.mem_cons.mp hq with he | hm
        · subst he
          exact init_le_foldl_max ps Prod.snd q.2
        · exact mem_le_foldl_max ps Prod.snd p.2 q hm
      have hlen2 := sum_le_length_mul ((p :: ps).map Prod.snd) _ hall
      rw [List.length_map, List.length_cons] at hlen2
      linarith [hlen2]
    · show ps.foldl (fun m q => min m q.1) p.1
          ≤ (List.map Prod.fst (p :: ps)).sum / ((ps.length + 1 : Nat) : ℚ)
      rw [le_div_iff₀ hn]
      have hall : ∀ x ∈ (p :: ps).map Prod.fst, ps.foldl (fun m q => min m q.1) p.1 ≤ x := by
        intro x hx
        obtain ⟨q, hq, rfl⟩ := List.mem_map.mp hx
        rcases List.mem_cons.mp hq with he | hm
        · subst he
          exact foldl_min_le_init ps Prod.fst q.1
        · exact foldl_min_le_mem ps Prod.fst p.1 q hm
      have hlen2 := length_mul_le_sum ((p :: ps).map Prod.fst) _ hall
      rw [List.length_map, List.length_cons] at hlen2
      linarith [hlen2]
    · show (List.map Prod.fst (p :: ps)).sum / ((ps.length + 1 : Nat) : ℚ)
          ≤ ps.foldl (fun m q => max m q.1) p.1
      rw [div_le_iff₀ hn]
      have hall : ∀ x ∈ (p :: ps).map Prod.fst, x ≤ ps.foldl (fun m q => max m q.1) p.1 := by
        intro x hx
        obtain ⟨q, hq, rfl⟩ := List.mem_map.mp hx
        rcases List.mem_cons.mp hq with he | hm
        · subst he
          exact init_le_foldl_max ps Prod.fst q.1
        · exact mem_le_foldl_max ps Prod.fst p.1 q hm
      have hlen2 := sum_le_length_mul ((p :: ps).map Prod.fst) _ hall
      rw [List.length_map, List.length_cons] at hlen2
      linarith [hlen2]

/-- C3 (amended): for every feature list the synthesizer produces, bounds
are non-null iff at least one point feature with finite coordinates exists,
while the center is non-null iff at least one point feature exists at all
(finite or not — the source's `calculateCenter` has no finiteness check);
when bounds are present north is at least south and east at least west; and
when every feature has finite coordinates, the center components are finite
and lie within [south, north] times [west, east]. -/
theorem claim_C3 (rd : RawData) :
    ((formatMapData rd).bounds ≠ none
      ↔ finitePointCoords (formatMapData rd).features ≠ []) ∧
    ((formatMapData rd).center ≠ none ↔ (formatMapData rd).features ≠ []) ∧
    (∀ b, (formatMapData rd).bounds = some b → b.south ≤ b.north ∧ b.west ≤ b.east) ∧
    (∀ b c, (formatMapData rd).bounds = some b → (formatMapData rd).center = some c →
        (∀ f ∈ (formatMapData rd).features, ∃ lo la, f.lon = some lo ∧ f.lat = some la) →
        ∃ cla clo, c.lat = some cla ∧ c.lon = some clo ∧
          b.south ≤ cla ∧ cla ≤ b.north ∧ b.west ≤ clo ∧ clo ≤ b.east) := by
  have hbnd : (formatMapData rd).bounds = calculateBounds (formatMapData rd).features := rfl
  have hcen : (formatMapData rd).center = calculateCenter (formatMapData rd).features := rfl
  refine ⟨?_, ?_, ?_, ?_⟩
  · rw [hbnd]
    exact calculateBounds_ne_none_iff _
  · rw [hcen, calculateCenter_ne_none_iff,
      pointCoordValues_all_points _ (features_all_points rd)]
    simp
  · intro b hb
    rw [hbnd] at hb
    exact calculateBounds_ordered _ b hb
  · intro b c hb hc hfin
    rw [hbnd] at hb
    rw [hcen] at hc
    exact calculateCenter_in_bounds _ b c hb hc (features_all_points rd) hfin

/-- Counterexample to C3 as stated: a place-details-by-id payload with a
truthy `position` object whose coordinate members are absent produces one
Point feature with no finite coordinates; `calculateBounds` (which filters
with `Number.isFinite`) returns null, but `calculateCenter` (which does
not) returns a non-null center whose members are NaN — so center is
non-null although no point feature with finite coordinates exists, while
the claim requires both to be null then. -/
theorem claim_C3_counterexample :
    (formatMapData { placeByIdData := some { position := some { lat := none, lon := none } } }).bounds = none ∧
    (formatMapData { placeByIdData := some { position := some { lat := none, lon := none } } }).center ≠ none ∧
    finitePointCoords (formatMapData { placeByIdData := some { position := some { lat := none, lon := none } } }).features = [] ∧
    (formatMapData { placeByIdData := some { position := some { lat := none, lon := none } } }).features ≠ [] :=
  ⟨rfl, fun h => Option.noConfusion h, rfl, fun h => List.noConfusion h⟩

/-- Witness for C3 at a one-feature IP-location payload. -/
theorem claim_C3_witness :
    (formatMapData { ipLocationData := some { latitude := some 2, longitude := some 6 } }).bounds
        = some (BoundsBox.mk 2 2 6 6) ∧
    (formatMapData { ipLocationData := some { latitude := some 2, longitude := some 6 } }).center
        = some (CenterPoint.mk (some ((0 + 2) / ((1 : Nat) : ℚ))) (some ((0 + 6) / ((1 : Nat) : ℚ)))) ∧
    ∃ cla clo,
      (CenterPoint.mk (some ((0 + 2) / ((1 : Nat) : ℚ))) (some ((0 + 6) / ((1 : Nat) : ℚ)))).lat = some cla ∧
      (CenterPoint.mk (some ((0 + 2) / ((1 : Nat) : ℚ))) (some ((0 + 6) / ((1 : Nat) : ℚ)))).lon = some clo ∧
      (BoundsBox.mk 2 2 6 6).south ≤ cla ∧ cla ≤ (BoundsBox.mk 2 2 6 6).north ∧
      (BoundsBox.mk 2 2 6 6).west ≤ clo ∧ clo ≤ (BoundsBox.mk 2 2 6 6).east :=
  ⟨rfl, rfl,
   (claim_C3 { ipLocationData := some { latitude := some 2, longitude := some 6 } }).2.2.2
     (BoundsBox.mk 2 2 6 6)
     (CenterPoint.mk (some ((0 + 2) / ((1 : Nat) : ℚ))) (some ((0 + 6) / ((1 : Nat) : ℚ))))
     rfl rfl
     (by
       intro f hf
       have he : f = MapFeature.mk "Point" (some 6) (some 2) { source := "IP Location" } :=
         List.mem_singleton.mp hf
       rw [he]
       exact ⟨6, 2, rfl, rfl⟩)⟩

/-- Counterexample to C4 as stated: an embedded object of exactly the shape
`type: "FeatureCollection"` with a `features` array is NOT classified as map
data — the extractor has no such branch; it only reads the `mapData` and
`map` fields (absent here, so map data stays null) and the whole object
becomes the analysis. -/
theorem claim_C4_counterexample :
    specIsFeatureCollectionShaped
      (JVal.jobj [("type", JVal.jstr "FeatureCollection"), ("features", JVal.jarr [])]) ∧
    jsonMapData
      (some (JVal.jobj [("type", JVal.jstr "FeatureCollection"), ("features", JVal.jarr [])]))
      = none ∧
    analysisFromJson
      (JVal.jobj [("type", JVal.jstr "FeatureCollection"), ("features", JVal.jarr [])])
      = JVal.jobj [("type", JVal.jstr "FeatureCollection"), ("features", JVal.jarr [])] :=
  ⟨⟨rfl, ⟨[], rfl⟩⟩, rfl, rfl⟩

/-- C4 (amended): for every parsed truthy embedded object, regardless of its
shape, the analysis is the object's truthy `analysis` field or else the
whole object, and the map data is the truthy `mapData` field or else the
truthy `map` field or else null; in particular a FeatureCollection-shaped
object without those fields contributes no map data and itself becomes the
analysis. -/
theorem claim_C4 :
    (∀ jc : JVal, jc.truthy = true →
        jsonMapData (some jc)
          = ((truthyGet jc "mapData").or (truthyGet jc "map")).map MapData.fromJson ∧
        analysisFromJson jc = (truthyGet jc "analysis").getD jc) ∧
    (∀ jc : JVal, specIsFeatureCollectionShaped jc →
        getField jc "mapData" = none → getField jc "map" = none →
        jsonMapData (some jc) = none ∧
        analysisFromJson jc = (truthyGet jc "analysis").getD jc) := by
  have hana : ∀ jc : JVal, analysisFromJson jc = (truthyGet jc "analysis").getD jc := by
    intro jc
    rw [analysisFromJson]
    cases truthyGet jc "analysis" with
    | none => rfl
    | some a => rfl
  constructor
  · intro jc hj
    refine ⟨?_, hana jc⟩
    rw [jsonMapData, if_pos hj]
  · intro jc hshape hmd hmp
    refine ⟨?_, hana jc⟩
    have hj : jc.truthy = true := by
      cases jc with
      | jobj fields => rfl
      | jstr s => exact absurd hshape.1 (by simp [getField])
      | jnum q => exact absurd hshape.1 (by simp [getField])
      | jbool b => exact absurd hshape.1 (by simp [getField])
      | jnull => exact absurd hshape.1 (by simp [getField])
      | jarr xs => exact absurd hshape.1 (by simp [getField])
    rw [jsonMapData, if_pos hj]
    rw [truthyGet, truthyGet, hmd, hmp]
    rfl

/-- Witness for C4 at the bare FeatureCollection object. -/
theorem claim_C4_witness :
    jsonMapData
      (some (JVal.jobj [("type", JVal.jstr "FeatureCollection"), ("features", JVal.jarr [])]))
      = none ∧
    analysisFromJson
      (JVal.jobj [("type", JVal.jstr "FeatureCollection"), ("features", JVal.jarr [])])
      = (truthyGet
          (JVal.jobj [("type", JVal.jstr "FeatureCollection"), ("features", JVal.jarr [])])
          "analysis").getD
          (JVal.jobj [("type", JVal.jstr "FeatureCollection"), ("features", JVal.jarr [])]) :=
  claim_C4.2 (JVal.jobj [("type", JVal.jstr "FeatureCollection"), ("features", JVal.jarr [])])
    ⟨rfl, ⟨[], rfl⟩⟩ rfl rfl

/-- Appending on the left of a nonempty string is nonempty. -/
theorem append_left_ne_empty (a b : String) (ha : a ≠ "") : a ++ b ≠ "" := by
  intro h
  have hlen : (a ++ b).length = 0 := by rw [h]; rfl
  rw [String.length_append] at hlen
  have ha2 : a.length ≠ 0 := by
    obtain ⟨da⟩ := a
    intro hz
    apply ha
    have hda : da = [] := List.length_eq_zero.mp hz
    rw [hda]
  omega

/-- The JavaScript string-or chain never yields the empty string when its
default is nonempty. -/
theorem jsOrDefault_ne_empty (a : Option String) (d : String) (hd : d ≠ "") :
    jsOrDefault a d ≠ "" := by
  cases a with
  | none => exact hd
  | some s =>
    rw [jsOrDefault]
    by_cases hs : s = ""
    · rw [if_pos hs]; exact hd
    · rw [if_neg hs]; exact hs

/-- C8: the domain-query pipeline always returns an outcome with a populated
text field — the success path falls back through content to a fixed
non-empty string, and the failure path produces the generic
"Error processing (domain) query: (message)" text with success false — and
a null mapData is a valid outcome with the success flag unchanged (the
success path sets success to true regardless of the map data). -/
theorem claim_C8 :
    (∀ (agentType : String) (r : Except String AgentTurn),
        (processDomainQuery agentType r).dataText ≠ "") ∧
    (∀ (agentType msg : String),
        processDomainQuery agentType (Except.error msg) = formatErrorResponse msg agentType ∧
        (processDomainQuery agentType (Except.error msg)).success = false ∧
        (processDomainQuery agentType (Except.error msg)).dataText
          = "Error processing " ++ agentType ++ " query: " ++ msg) ∧
    (∀ (agentType : String) (turn : AgentTurn),
        (processDomainQuery agentType (Except.ok turn)).success = true) := by
  refine ⟨?_, ?_, ?_⟩
  · intro agentType r
    cases r with
    | error msg =>
      show "Error processing " ++ agentType ++ " query: " ++ msg ≠ ""
      rw [String.append_assoc, String.append_assoc]
      exact append_left_ne_empty _ _ (by decide)
    | ok turn =>
      show responseTextOf turn ≠ ""
      exact jsOrDefault_ne_empty _ _ (jsOrDefault_ne_empty _ _ (by decide))
  · intro agentType msg
    exact ⟨rfl, rfl, rfl⟩
  · intro agentType turn
    rfl

/-- Witness for C8: a bare successful agent turn has non-empty text, success
true and null map data; a failing call yields the generic error text. -/
theorem claim_C8_witness :
    (processDomainQuery "urban-planning"
        (Except.ok (AgentTurn.mk none none none none false))).dataText ≠ "" ∧
    (processDomainQuery "urban-planning"
        (Except.ok (AgentTurn.mk none none none none false))).success = true ∧
    (processDomainQuery "urban-planning"
        (Except.ok (AgentTurn.mk none none none none false))).dataMapData = none ∧
    (processDomainQuery "urban-planning" (Except.error "boom")).dataText
      = "Error processing urban-planning query: boom" :=
  ⟨claim_C8.1 "urban-planning" (Except.ok (AgentTurn.mk none none none none false)),
   claim_C8.2.2 "urban-planning" (AgentTurn.mk none none none none false),
   rfl,
   (claim_C8.2.1 "urban-planning" "boom").2.2.trans rfl⟩

/-- The value of an enumerated entry is an element of the underlying
list. -/
theorem snd_mem_of_mem_enumFrom {α : Type} (l : List α) (n : Nat) (p : Nat × α)
    (h : p ∈ l.enumFrom n) : p.2 ∈ l := by
  induction l generalizing n with
  | nil => exact absurd h (by simp)
  | cons x xs ih =>
    rw [List.enumFrom] at h
    rcases List.mem_cons.mp h with he | hm
    · rw [he]
      exact List.mem_cons_self x xs
    · exact List.mem_cons_of_mem x (ih (n + 1) hm)

/-- The value of an enumerated entry is an element of the underlying
list (from zero). -/
theorem snd_mem_of_mem_enum {α : Type} (l : List α) (p : Nat × α)
    (h : p ∈ l.enum) : p.2 ∈ l :=
  snd_mem_of_mem_enumFrom l 0 p h

/-- Every feature the text-based generator emits comes from the built-in
location table: its name/latitude/longitude triple is a table entry, its
source tag is text-analysis, and its name occurs in the scanned text. -/
theorem generateBasic_features (t : String) (fc : BasicFC)
    (h : generateBasicMapDataFromText t = some fc) :
    ∀ f ∈ fc.features, (f.name, f.lat, f.lon) ∈ majorLocations ∧
      f.source = "text-analysis" ∧ strContainsCI t f.name = true := by
  rw [generateBasicMapDataFromText] at h
  by_cases hlen : 0 < (majorLocations.enum.filterMap
      (fun p => if strContainsCI t p.2.1 then some (basicFeatureFor p.1 p.2) else none)).length
  · rw [if_pos hlen] at h
    have hfc := Option.some.inj h
    subst hfc
    intro f hf
    rw [List.mem_filterMap] at hf
    obtain ⟨p, hp, hif⟩ := hf
    by_cases hct : strContainsCI t p.2.1 = true
    · rw [if_pos hct] at hif
      have hfe := Option.some.inj hif
      obtain ⟨i, nm, la, lo⟩ := p
      subst hfe
      refine ⟨?_, rfl, ?_⟩
      · exact snd_mem_of_mem_enum majorLocations (i, nm, la, lo) hp
      · exact hct
    · rw [if_neg hct] at hif
      exact absurd hif (by simp)
  · rw [if_neg hlen] at h
    exact absurd h (by simp)

/-- Counterexample to C1 as stated: with no parsed embedded JSON and no tool
results at all — so no provider payload and no embedded response data exist
— a response text that merely mentions "Pine Street" yields non-null map
data whose single feature carries coordinates (lat 37.7920, lon -122.3984)
taken from the hard-coded geocoding table, i.e. fabricated rather than taken
from any input. -/
theorem claim_C1_counterexample :
    extractMapData none none true "Growth along Pine Street continues." ≠ none ∧
    mapDataBasicFeatures (extractMapData none none true "Growth along Pine Street continues.")
      = [basicFeatureFor 1 ("Pine Street", 37.7920, -122.3984)] :=
  ⟨fun h => Option.noConfusion h, rfl⟩

/-- C1 (amended): the map-or-null pipeline returns the first non-null map
data produced by its three ordered strategies (embedded-JSON fields,
tool-result scan, text-table generation) and null when none produces a
value; but the third strategy's features carry coordinates from the fixed
built-in location table keyed by names found in the text, not from a
provider payload or the embedded response data, and the first two
strategies' values are not checked to be non-empty FeatureCollections. -/
theorem claim_C1 :
    (∀ (jsonContent : Option JVal) (toolResults : Option (List JVal))
        (hasLocationMatch : Bool) (text : String),
        extractMapData jsonContent toolResults hasLocationMatch text
          = ((jsonMapData jsonContent).or (toolResultsMapData toolResults)).or
              (textMapData hasLocationMatch text)) ∧
    (∀ (g : Bool) (t : String) (fc : BasicFC) (f : BasicFeature),
        textMapData g t = some (MapData.generated fc) → f ∈ fc.features →
        (f.name, f.lat, f.lon) ∈ majorLocations ∧ f.source = "text-analysis" ∧
        strContainsCI t f.name = true) := by
  constructor
  · intro jc trs g t
    cases jc with
    | none =>
      cases trs with
      | none => rfl
      | some l =>
        cases hscan : scanToolResults l <;>
          simp only [extractMapData.eq_def, jsonMapData.eq_def, toolResultsMapData.eq_def,
            textMapData.eq_def, hscan] <;>
          rfl
    | some j =>
      cases hjv : j.truthy with
      | false =>
        cases trs with
        | none =>
          simp only [extractMapData.eq_def, jsonMapData.eq_def, toolResultsMapData.eq_def,
            textMapData.eq_def, hjv]
          rfl
        | some l =>
          cases hscan : scanToolResults l <;>
            simp only [extractMapData.eq_def, jsonMapData.eq_def, toolResultsMapData.eq_def,
              textMapData.eq_def, hjv, hscan] <;>
            rfl
      | true =>
        cases hmd : truthyGet j "mapData" with
        | some v =>
          simp only [extractMapData.eq_def, jsonMapData.eq_def, toolResultsMapData.eq_def,
            textMapData.eq_def, hjv, hmd]
          rfl
        | none =>
          cases hmp : truthyGet j "map" with
          | some v =>
            simp only [extractMapData.eq_def, jsonMapData.eq_def, toolResultsMapData.eq_def,
              textMapData.eq_def, hjv, hmd, hmp]
            rfl
          | none =>
            cases trs with
            | none =>
              simp only [extractMapData.eq_def, jsonMapData.eq_def, toolResultsMapData.eq_def,
                textMapData.eq_def, hjv, hmd, hmp]
              rfl
            | some l =>
              cases hscan : scanToolResults l <;>
                simp only [extractMapData.eq_def, jsonMapData.eq_def, toolResultsMapData.eq_def,
                  textMapData.eq_def, hjv, hmd, hmp, hscan] <;>
                rfl
  · intro g t fc f htm hf
    rw [textMapData] at htm
    cases g with
    | false => exact absurd htm (by simp)
    | true =>
      rw [if_pos rfl] at htm
      cases hgen : generateBasicMapDataFromText t with
      | none =>
        rw [hgen] at htm
        exact absurd htm (by simp)
      | some fc2 =>
        rw [hgen] at htm
        have h1 : MapData.generated fc2 = MapData.generated fc := Option.some.inj htm
        have h2 : fc2 = fc := MapData.generated.inj h1
        subst h2
        exact generateBasic_features t fc2 hgen f hf

/-- Witness for C1: the strategy decomposition at empty inputs, and the
table provenance of the concrete Pine Street generation. -/
theorem claim_C1_witness :
    extractMapData none none true "Growth along Pine Street continues."
      = ((jsonMapData none).or (toolResultsMapData none)).or
          (textMapData true "Growth along Pine Street continues.") ∧
    (("Pine Street", (37.7920 : ℚ), (-122.3984 : ℚ)) ∈ majorLocations ∧
     "text-analysis" = "text-analysis" ∧
     strContainsCI "Growth along Pine Street continues." "Pine Street" = true) :=
  ⟨claim_C1.1 none none true "Growth along Pine Street continues.",
   claim_C1.2 true "Growth along Pine Street continues."
     { fcType := "FeatureCollection",
       features := [basicFeatureFor 1 ("Pine Street", 37.7920, -122.3984)],
       bounds := psCalculateBounds [basicFeatureFor 1 ("Pine Street", 37.7920, -122.3984)],
       center := psCalculateCenter [basicFeatureFor 1 ("Pine Street", 37.7920, -122.3984)],
       totalFeatures := 1,
       sources := ["text-analysis"],
       note := "Generated from locations mentioned in analysis" }
     (basicFeatureFor 1 ("Pine Street", 37.7920, -122.3984))
     rfl (List.mem_singleton.mpr rfl)⟩
